import Mathlib

/-!
# Index-card app (`src/app.js`): state model, card selection, rating, tab and
card lifecycle, export / import

A shallow embedding of the application logic of `src/app.js`.

* The module-level variables `state`, `currentCard`, `isCardRevealed` and
  `editingTabId`, together with the `localStorage` slot
  `index-card-app-data`, form the record `World`; every handler is a function
  on `World`.
* `currentCard` is a JavaScript object reference.  The objects of `state.cards`
  are pairwise distinct objects, so a reference to one of them is its position
  (`CardRef.inState`); a reference to an object that is no longer an element of
  `state.cards` is `CardRef.detached`, carrying the object's fields.
* Everything the handlers read from the environment is an explicit argument:
  the value of `Math.random()` (a rational, so that the walk is computed in
  exact arithmetic), the values of `Date.now()`, the answers of `confirm` and
  `prompt`, the text of the input fields and the file handed to the importer.
* A weight is a JavaScript number with an integer value.  The sums written by
  `rateCard` are rounded to binary64 (`roundBinary64`); the walk of
  `selectNextCard` is computed in exact arithmetic.
* `JSON.stringify` / `JSON.parse` are not modelled character by character: the
  storage slot holds the `AppState` value that was serialised, and an import
  file is either unparseable or a document whose `tabs` and `cards`
  collections may each be absent.
* DOM rendering (`renderTabs`, `renderList`, the class toggling of
  `switchView`) has no effect on the modelled variables and is left out.
-/

namespace CardsIndex

/-! ## Data model -/

/-- Tab object: `{ id, name, createdAt }`. -/
structure Tab where
  id : String
  name : String
  createdAt : Nat
deriving DecidableEq, Repr

/-- Card object: `{ id, tabId, front, back, weight, isArchived, createdAt }`.
`weight` is `none` when the property is missing, and otherwise the integer
value of the number it holds. -/
structure Card where
  id : String
  tabId : String
  front : String
  back : String
  weight : Option Int
  isArchived : Bool
  createdAt : Nat
deriving DecidableEq, Repr

/-- The object held in the variable `state`: `{ tabs, cards, activeTabId }`. -/
structure AppState where
  tabs : List Tab
  cards : List Card
  activeTabId : String
deriving DecidableEq, Repr

/-- A reference to a card object, as held in `currentCard`. -/
inductive CardRef where
  | inState (idx : Nat)
  | detached (card : Card)
deriving DecidableEq, Repr

/-- The mutable variables of the script and the storage slot. -/
structure World where
  state : AppState
  stored : Option AppState
  currentCard : Option CardRef
  isCardRevealed : Bool
  editingTabId : Option String
deriving DecidableEq, Repr

/-- The object `currentCard` refers to, if any. -/
def World.currentCardObj (w : World) : Option Card :=
  match w.currentCard with
  | none => none
  | some (CardRef.inState i) => w.state.cards[i]?
  | some (CardRef.detached c) => some c

/-- In-place assignment to fields of the object `currentCard` refers to. -/
def World.updateCurrent (w : World) (f : Card → Card) : World :=
  match w.currentCard with
  | none => w
  | some (CardRef.inState i) =>
      { w with state := { w.state with cards := w.state.cards.modify f i } }
  | some (CardRef.detached c) => { w with currentCard := some (CardRef.detached (f c)) }

/-- JavaScript truthiness of a string value: the empty string is falsy. -/
def truthy (s : String) : Bool := s != ""

/-- The characters `String.prototype.trim` removes: the ECMAScript WhiteSpace
and LineTerminator code points. -/
def isJsSpace (c : Char) : Bool :=
  let n := c.toNat
  n == 9 || n == 10 || n == 11 || n == 12 || n == 13 || n == 32 || n == 160 ||
  n == 5760 || (8192 ≤ n && n ≤ 8202) || n == 8232 || n == 8233 || n == 8239 ||
  n == 8287 || n == 12288 || n == 65279

/-- `String.prototype.trim`. -/
def jsTrim (s : String) : String :=
  String.mk (((s.data.dropWhile isJsSpace).reverse.dropWhile isJsSpace).reverse)

/-- In-place assignment to fields of the first element that satisfies `p`
(`const x = xs.find(p); x.field = ...`). -/
def modifyFirst {α : Type} (p : α → Bool) (f : α → α) : List α → List α
  | [] => []
  | a :: as => if p a then f a :: as else a :: modifyFirst p f as

/-- Where a reference points after `cards` has been replaced by
`cards.filter(keep)`: a kept object moves to its new position, a dropped one
is no longer part of the state. -/
def retarget (keep : Card → Bool) (cards : List Card) : CardRef → CardRef
  | CardRef.detached c => CardRef.detached c
  | CardRef.inState i =>
      match cards[i]? with
      | none => CardRef.inState i
      | some c =>
          if keep c then CardRef.inState ((cards.take i).filter keep).length
          else CardRef.detached c

/-- The assignment `state.cards = state.cards.filter(keep)`. -/
def filterCards (w : World) (keep : Card → Bool) : World :=
  { w with
    state := { w.state with cards := w.state.cards.filter keep }
    currentCard := w.currentCard.map (retarget keep w.state.cards) }

/-- The expression `card.weight || 1`: a missing or zero weight counts as 1. -/
def weightOr1 (c : Card) : Int :=
  match c.weight with
  | none => 1
  | some n => if n = 0 then 1 else n

/-! ## State management (lines 7-37) -/

/-- The constant `defaultState`; `t0` is the value of `Date.now()` when the
script is evaluated. -/
def defaultState (t0 : Nat) : AppState :=
  { tabs := [{ id := "tab-1", name := "General", createdAt := t0 }]
    cards := []
    activeTabId := "tab-1" }

/-- `loadState`: the parsed content of the storage slot, `none` when the slot
is empty. -/
def loadState (slot : Option AppState) : Option AppState := slot

/-- `saveState`: overwrite the storage slot with the serialised `state`. -/
def saveState (w : World) : World := { w with stored := some w.state }

/-- Lines 15-37: `state = loadState() || defaultState` followed by the repair
of `activeTabId`.  `tId` and `tCreated` are the two readings of `Date.now()`
used for the replacement tab. -/
def startup (slot : Option AppState) (t0 tId tCreated : Nat) : World :=
  let state := (loadState slot).getD (defaultState t0)
  let w : World :=
    { state := state, stored := slot, currentCard := none,
      isCardRevealed := false, editingTabId := none }
  match state.tabs.find? (fun t => t.id == state.activeTabId) with
  | some _ => w
  | none =>
      match state.tabs with
      | first :: _ => saveState { w with state := { state with activeTabId := first.id } }
      | [] =>
          let newTab : Tab :=
            { id := "tab-" ++ toString tId, name := "General", createdAt := tCreated }
          saveState { w with state :=
            { state with tabs := state.tabs ++ [newTab], activeTabId := newTab.id } }

/-! ## Flashcard logic (lines 233-310) -/

/-- `getCardsForTab`: the card objects of a tab, each paired with its position
in `state.cards` (its identity). -/
def getCardsForTab (s : AppState) (tabId : String) : List (Nat × Card) :=
  s.cards.enum.filter (fun p => p.2.tabId == tabId)

/-- The local `activeCards` of `selectNextCard`: the non-archived cards of
the active tab. -/
def activeCards (s : AppState) : List (Nat × Card) :=
  (getCardsForTab s s.activeTabId).filter (fun p => !p.2.isArchived)

/-- The local `totalWeight` of `selectNextCard`:
`activeCards.reduce((sum, card) => sum + (card.weight || 1), 0)`. -/
def totalWeight (cs : List (Nat × Card)) : Int :=
  cs.foldl (fun sum p => sum + weightOr1 p.2) 0

/-- The `for` loop of `selectNextCard`: subtract each weight from `random`
and stop at the first card where the running value is `≤ 0`.  `none` means the
loop ended without selecting. -/
def walk : List (Nat × Card) → ℚ → Option Nat
  | [], _ => none
  | p :: rest, random =>
      let random := random - (weightOr1 p.2 : ℚ)
      if random ≤ 0 then some p.1 else walk rest random

/-- `selectNextCard`; `rnd` is the value returned by `Math.random()`. -/
def selectNextCard (w : World) (rnd : ℚ) : World :=
  match activeCards w.state with
  | [] => { w with currentCard := none }
  | first :: rest =>
      let random := rnd * (totalWeight (first :: rest) : ℚ)
      match walk (first :: rest) random with
      | some i => { w with currentCard := some (CardRef.inState i) }
      | none => { w with currentCard := some (CardRef.inState first.1) }

/-- `renderCard`: of the modelled variables only `isCardRevealed` is written. -/
def renderCard (w : World) : World := { w with isCardRevealed := false }

/-- `handleCardTap`. -/
def handleCardTap (w : World) : World :=
  match w.currentCardObj with
  | none => w
  | some _ => if w.isCardRevealed then w else { w with isCardRevealed := true }

/-- `refreshCard`. -/
def refreshCard (w : World) (rnd : ℚ) : World := renderCard (selectNextCard w rnd)

/-- The unit in the last place of the binary64 number nearest to `a`, for
`2 ^ 53 ≤ a`: the power of two `u` with `2 ^ 52 * u ≤ a < 2 ^ 53 * u`.  The
fuel bounds the number of halvings. -/
def ulpOf : Nat → Nat → Nat
  | 0, _ => 1
  | fuel + 1, a => if a < 2 ^ 53 then 1 else 2 * ulpOf fuel (a / 2)

/-- The binary64 value of an integer result of `+` or `-`: integers of
magnitude up to `2 ^ 53` are exact, larger ones are rounded to the nearest
multiple of their unit in the last place, ties to the even significand
(magnitudes below `2 ^ 1024`, which sums of a binary64 weight and 1 or 2 never
leave). -/
def roundBinary64 (x : Int) : Int :=
  let a := x.natAbs
  if a ≤ 2 ^ 53 then x
  else
    let ulp := ulpOf 1024 a
    let q := a / ulp
    let r := a % ulp
    let q' :=
      if 2 * r < ulp then q
      else if ulp < 2 * r then q + 1
      else if q % 2 = 0 then q else q + 1
    Int.sign x * ((q' * ulp : Nat) : Int)

/-- The new value stored in `currentCard.weight` by `rateCard`:
`Math.max(1, (currentCard.weight || 1) - 1)` or `(currentCard.weight || 1) + 2`,
the difference and the sum being binary64 operations. -/
def ratedWeight (isCorrect : Bool) (c : Card) : Int :=
  if isCorrect then max 1 (roundBinary64 (weightOr1 c - 1))
  else roundBinary64 (weightOr1 c + 2)

/-- `rateCard`. -/
def rateCard (w : World) (isCorrect : Bool) (rnd : ℚ) : World :=
  match w.currentCardObj with
  | none => w
  | some _ =>
      let w1 := w.updateCurrent (fun c => { c with weight := some (ratedWeight isCorrect c) })
      refreshCard (saveState w1) rnd

/-- `deleteCurrentCard`. -/
def deleteCurrentCard (w : World) (confirmed : Bool) (rnd : ℚ) : World :=
  match w.currentCardObj with
  | none => w
  | some cur =>
      if confirmed then
        refreshCard (saveState (filterCards w (fun c => c.id != cur.id))) rnd
      else w

/-- `archiveCurrentCard`. -/
def archiveCurrentCard (w : World) (rnd : ℚ) : World :=
  match w.currentCardObj with
  | none => w
  | some _ =>
      refreshCard (saveState (w.updateCurrent (fun c => { c with isArchived := true }))) rnd

/-! ## View navigation (lines 537-559) and initialisation -/

/-- The argument of `switchView`. -/
inductive View where
  | flashcard
  | add
  | list
deriving DecidableEq, Repr

/-- `switchView`: only the flashcard view touches the modelled variables. -/
def switchView (w : World) (viewName : View) (rnd : ℚ) : World :=
  match viewName with
  | View.flashcard => refreshCard w rnd
  | View.add => w
  | View.list => w

/-- `showFlashcardView`. -/
def showFlashcardView (w : World) (rnd : ℚ) : World := switchView w View.flashcard rnd

/-- `init`: `renderTabs(); showFlashcardView();` (the listeners it installs are
the handlers below). -/
def init (w : World) (rnd : ℚ) : World := showFlashcardView w rnd

/-! ## Tabs logic (lines 120-229) -/

/-- The `onclick` handler that `renderTabs` installs on the button of the tab
at position `i` of `state.tabs`.  `renderTabs` runs after every completed
change of `state.tabs`, so the buttons are those of `state.tabs`. -/
def tabOnclick (w : World) (i : Nat) (rnd : ℚ) : World :=
  match w.state.tabs[i]? with
  | none => w
  | some tab =>
      showFlashcardView
        (saveState { w with state := { w.state with activeTabId := tab.id } }) rnd

/-- `handleAddTab`; `name` is the answer of `prompt` (`none` when cancelled). -/
def handleAddTab (w : World) (name : Option String) (tId tCreated : Nat) (rnd : ℚ) : World :=
  match name with
  | none => w
  | some name =>
      if truthy name then
        let newTab : Tab :=
          { id := "tab-" ++ toString tId, name := name, createdAt := tCreated }
        showFlashcardView
          (saveState { w with state :=
            { w.state with tabs := w.state.tabs ++ [newTab], activeTabId := newTab.id } }) rnd
      else w

/-- `openManageTabDialog`. -/
def openManageTabDialog (w : World) (tabId : String) : World :=
  match w.state.tabs.find? (fun t => t.id == tabId) with
  | none => w
  | some _ => { w with editingTabId := some tabId }

/-- The `close` listener of the manage-tab dialog (lines 122-135):
`returnValue` is the dialog's return value and `inputValue` the text of the
name field. -/
def manageTabDialogClose (w : World) (returnValue inputValue : String) : World :=
  let w1 :=
    if returnValue == "confirm" then
      let newName := jsTrim inputValue
      match w.editingTabId with
      | none => w
      | some eid =>
          if truthy newName && truthy eid then
            match w.state.tabs.find? (fun t => t.id == eid) with
            | none => w
            | some _ =>
                let tabs := modifyFirst (fun t => t.id == eid)
                  (fun t => { t with name := newName }) w.state.tabs
                saveState { w with state := { w.state with tabs := tabs } }
          else w
    else w
  { w1 with editingTabId := none }

/-- How a handler ends: normally, or with an uncaught `TypeError` that leaves
the variables as they were at the throwing statement. -/
inductive Outcome where
  | completed (w : World)
  | threw (w : World)
deriving DecidableEq, Repr

/-- The variables a handler leaves behind. -/
def Outcome.world : Outcome → World
  | Outcome.completed w => w
  | Outcome.threw w => w

/-- `handleDeleteTab`.  `state.tabs[0].id` throws when no tab remains. -/
def handleDeleteTab (w : World) (confirmed : Bool) (rnd : ℚ) : Outcome :=
  match w.editingTabId with
  | none => Outcome.completed w
  | some eid =>
      if !truthy eid then Outcome.completed w
      else if w.state.tabs.length ≤ 1 then Outcome.completed w
      else if confirmed then
        let w1 := filterCards w (fun c => c.tabId != eid)
        let w2 : World := { w1 with state :=
          { w1.state with tabs := w1.state.tabs.filter (fun t => t.id != eid) } }
        if w2.state.activeTabId == eid then
          match w2.state.tabs with
          | [] => Outcome.threw w2
          | first :: _ =>
              Outcome.completed (showFlashcardView
                (saveState { w2 with state := { w2.state with activeTabId := first.id } }) rnd)
        else Outcome.completed (showFlashcardView (saveState w2) rnd)
      else Outcome.completed w

/-! ## Add card logic (lines 330-359) -/

/-- `handleSaveCard`; `inputFront` and `inputBack` are the values of the two
text fields. -/
def handleSaveCard (w : World) (inputFront inputBack : String) (tId tCreated : Nat) : World :=
  let front := jsTrim inputFront
  let back := jsTrim inputBack
  if !truthy front || !truthy back then w
  else
    let newCard : Card :=
      { id := "card-" ++ toString tId
        tabId := w.state.activeTabId
        front := front
        back := back
        weight := some 3
        isArchived := false
        createdAt := tCreated }
    saveState { w with state := { w.state with cards := w.state.cards ++ [newCard] } }

/-! ## Manage / archive list logic (lines 419-465) -/

/-- `window.deleteCard`. -/
def deleteCard (w : World) (id : String) (confirmed : Bool) : World :=
  if confirmed then
    let w1 := saveState (filterCards w (fun c => c.id != id))
    match w1.currentCardObj with
    | none => w1
    | some cur => if cur.id == id then { w1 with currentCard := none } else w1
  else w

/-- `window.archiveCard`. -/
def archiveCard (w : World) (id : String) (rnd : ℚ) : World :=
  match w.state.cards.find? (fun c => c.id == id) with
  | none => w
  | some _ =>
      let cards := modifyFirst (fun c => c.id == id)
        (fun c => { c with isArchived := true }) w.state.cards
      let w1 := saveState { w with state := { w.state with cards := cards } }
      match w1.currentCardObj with
      | none => w1
      | some cur => if cur.id == id then refreshCard w1 rnd else w1

/-- `window.unarchiveCard`. -/
def unarchiveCard (w : World) (id : String) (rnd : ℚ) : World :=
  match w.state.cards.find? (fun c => c.id == id) with
  | none => w
  | some _ =>
      let cards := modifyFirst (fun c => c.id == id)
        (fun c => { c with isArchived := false }) w.state.cards
      refreshCard (saveState { w with state := { w.state with cards := cards } }) rnd

/-- `window.editCard`; `newFront` and `newBack` are the answers of the two
prompts (`none` when cancelled). -/
def editCard (w : World) (id : String) (newFront newBack : Option String) : World :=
  match w.state.cards.find? (fun c => c.id == id) with
  | none => w
  | some _ =>
      match newFront, newBack with
      | some f, some b =>
          let cards := modifyFirst (fun c => c.id == id)
            (fun c => { c with front := f, back := b }) w.state.cards
          let w1 := saveState { w with state := { w.state with cards := cards } }
          match w1.currentCardObj with
          | none => w1
          | some cur => if cur.id == id then renderCard w1 else w1
      | _, _ => w

/-! ## Export / import logic (lines 480-533) -/

/-- A parsed import document: the `tabs` and `cards` collections may each be
absent (or falsy); arrays, empty ones included, are truthy. -/
structure ImportDoc where
  tabs : Option (List Tab)
  cards : Option (List Card)
  activeTabId : String
deriving DecidableEq, Repr

/-- The text of a file as `JSON.parse` sees it: `malformed` when `JSON.parse`
throws (or returns `null`, on which the property access throws); a parsed
value without a `tabs` or `cards` property is a document that lacks them. -/
inductive FileContent where
  | malformed
  | document (d : ImportDoc)
deriving DecidableEq, Repr

/-- `handleExport`: the content of the downloaded file,
`JSON.stringify(state, null, 2)`.  No variable is written. -/
def handleExport (w : World) : FileContent :=
  FileContent.document
    { tabs := some w.state.tabs, cards := some w.state.cards,
      activeTabId := w.state.activeTabId }

/-- The exception caught by the `catch` block of the file reader callback. -/
inductive ImportError where
  | syntaxError
  | invalidFormat
  | typeError
deriving DecidableEq, Repr

/-- What the user is told at the end of `handleFileImport`. -/
inductive ImportReport where
  | noFile
  | declined
  | restored
  | failed (e : ImportError)
deriving DecidableEq, Repr

/-- `handleFileImport` together with its `reader.onload` callback; `file` is
`event.target.files[0]`.  The assignment `state = importedState` leaves
`currentCard` pointing at an object of the old state. -/
def handleFileImport (w : World) (file : Option FileContent) (confirmed : Bool) (rnd : ℚ) :
    World × ImportReport :=
  match file with
  | none => (w, ImportReport.noFile)
  | some FileContent.malformed => (w, ImportReport.failed ImportError.syntaxError)
  | some (FileContent.document d) =>
      match d.tabs, d.cards with
      | some tabs, some cards =>
          if confirmed then
            let w1 : World := saveState { w with
              state := { tabs := tabs, cards := cards, activeTabId := d.activeTabId }
              currentCard := w.currentCard.map (retarget (fun _ => false) w.state.cards) }
            match tabs with
            | [] => (w1, ImportReport.failed ImportError.typeError)
            | first :: _ =>
                let w2 : World := { w1 with
                  state := { w1.state with activeTabId := first.id }
                  currentCard := none
                  isCardRevealed := false }
                (showFlashcardView w2 rnd, ImportReport.restored)
          else (w, ImportReport.declined)
      | _, _ => (w, ImportReport.failed ImportError.invalidFormat)

/-! ## The non-import handlers as one transition function -/

/-- A user action other than import / export, with the values the handler
reads from its environment. -/
inductive Action where
  | tabClick (i : Nat) (rnd : ℚ)
  | addTab (name : Option String) (tId tCreated : Nat) (rnd : ℚ)
  | openManageTab (tabId : String)
  | closeManageTab (returnValue inputValue : String)
  | deleteTab (confirmed : Bool) (rnd : ℚ)
  | showView (viewName : View) (rnd : ℚ)
  | cardTap
  | rate (isCorrect : Bool) (rnd : ℚ)
  | deleteCurrent (confirmed : Bool) (rnd : ℚ)
  | archiveCurrent (rnd : ℚ)
  | saveCard (inputFront inputBack : String) (tId tCreated : Nat)
  | deleteCard (id : String) (confirmed : Bool)
  | archiveCard (id : String) (rnd : ℚ)
  | unarchiveCard (id : String) (rnd : ℚ)
  | editCard (id : String) (newFront newBack : Option String)

/-- Run the handler of an action. -/
def step (w : World) : Action → Outcome
  | Action.tabClick i rnd => Outcome.completed (tabOnclick w i rnd)
  | Action.addTab name tId tCreated rnd => Outcome.completed (handleAddTab w name tId tCreated rnd)
  | Action.openManageTab tabId => Outcome.completed (openManageTabDialog w tabId)
  | Action.closeManageTab rv iv => Outcome.completed (manageTabDialogClose w rv iv)
  | Action.deleteTab confirmed rnd => handleDeleteTab w confirmed rnd
  | Action.showView v rnd => Outcome.completed (switchView w v rnd)
  | Action.cardTap => Outcome.completed (handleCardTap w)
  | Action.rate isCorrect rnd => Outcome.completed (rateCard w isCorrect rnd)
  | Action.deleteCurrent confirmed rnd => Outcome.completed (deleteCurrentCard w confirmed rnd)
  | Action.archiveCurrent rnd => Outcome.completed (archiveCurrentCard w rnd)
  | Action.saveCard f b tId tCreated => Outcome.completed (handleSaveCard w f b tId tCreated)
  | Action.deleteCard id confirmed => Outcome.completed (deleteCard w id confirmed)
  | Action.archiveCard id rnd => Outcome.completed (archiveCard w id rnd)
  | Action.unarchiveCard id rnd => Outcome.completed (unarchiveCard w id rnd)
  | Action.editCard id f b => Outcome.completed (editCard w id f b)

/-- The invariant of `activeTabId`: `tabs` is non-empty and `activeTabId` is
the id of one of its elements. -/
def ActiveTabValid (s : AppState) : Prop :=
  s.tabs ≠ [] ∧ ∃ t ∈ s.tabs, t.id = s.activeTabId

/-- Example card of the tab `tab-1` with weight 1. -/
def cardA : Card :=
  { id := "card-1", tabId := "tab-1", front := "Q1", back := "A1", weight := some 1,
    isArchived := false, createdAt := 0 }

/-- Example card of the tab `tab-1` with weight 3. -/
def cardB : Card :=
  { id := "card-2", tabId := "tab-1", front := "Q2", back := "A2", weight := some 3,
    isArchived := false, createdAt := 0 }

/-- Example world: the default tab with the two cards `cardA` and `cardB`. -/
def twoCardWorld : World :=
  { state := { (defaultState 0) with cards := [cardA, cardB] }
    stored := none, currentCard := none, isCardRevealed := false, editingTabId := none }

/-- The values the handlers of the scenario read from their environment:
three readings of `Date.now()` and five values of `Math.random()`. -/
structure ScenarioInputs where
  t0 : Nat
  tId : Nat
  tCreated : Nat
  r0 : ℚ
  r1 : ℚ
  r2 : ℚ
  r3 : ℚ
  r4 : ℚ

/-- Scenario, step 1: start with an empty storage slot (default state), run
`init`, open the add view, save the card `Q1` / `A1`, return to the flashcard
view (which selects the next card). -/
def scenarioAdded (x : ScenarioInputs) : World :=
  let w0 := init (startup none x.t0 0 0) x.r0
  let w1 := handleSaveCard (switchView w0 View.add 0) "Q1" "A1" x.tId x.tCreated
  switchView w1 View.flashcard x.r1

/-- Scenario, step 2: `rateCard(false)`. -/
def scenarioMissed (x : ScenarioInputs) : World := rateCard (scenarioAdded x) false x.r2

/-- Scenario, step 3: `rateCard(true)`. -/
def scenarioRecalled (x : ScenarioInputs) : World := rateCard (scenarioMissed x) true x.r3

/-- Scenario, step 4: `rateCard(true)` once more. -/
def scenarioRecalledTwice (x : ScenarioInputs) : World :=
  rateCard (scenarioRecalled x) true x.r4

/-- The card of the scenario with weight `n`. -/
def scenarioCard (x : ScenarioInputs) (n : Int) : Card :=
  { id := "card-" ++ toString x.tId, tabId := "tab-1", front := "Q1", back := "A1",
    weight := some n, isArchived := false, createdAt := x.tCreated }

/-- The handler wrote neither `state.tabs` nor `state.activeTabId`. -/
def SameTabs (w w' : World) : Prop :=
  w'.state.tabs = w.state.tabs ∧ w'.state.activeTabId = w.state.activeTabId

/-- Example card of the tab `tab-2`. -/
def cardC : Card :=
  { id := "card-3", tabId := "tab-2", front := "Q3", back := "A3", weight := some 2,
    isArchived := false, createdAt := 0 }

/-- Example world with two tabs, `tab-1` active and being managed. -/
def twoTabWorld : World :=
  { state :=
      { tabs := [{ id := "tab-1", name := "General", createdAt := 0 },
                 { id := "tab-2", name := "Maths", createdAt := 0 }]
        cards := [cardA, cardC, cardB]
        activeTabId := "tab-1" }
    stored := none, currentCard := none, isCardRevealed := false
    editingTabId := some "tab-1" }

/-- Example world whose two tabs share the id `tab-1`, which is active and
being managed. -/
def dupTabWorld : World :=
  { state :=
      { tabs := [{ id := "tab-1", name := "General", createdAt := 0 },
                 { id := "tab-1", name := "Maths", createdAt := 0 }]
        cards := [cardA]
        activeTabId := "tab-1" }
    stored := none, currentCard := none, isCardRevealed := false
    editingTabId := some "tab-1" }

/-- Example world with a tab whose id is the empty string, being managed. -/
def blankIdWorld : World :=
  { state :=
      { tabs := [{ id := "", name := "General", createdAt := 0 },
                 { id := "tab-2", name := "Maths", createdAt := 0 }]
        cards := [cardC]
        activeTabId := "tab-2" }
    stored := none, currentCard := none, isCardRevealed := false
    editingTabId := some "" }

/-- Import document with an empty `tabs` array. -/
def emptyTabsDoc : ImportDoc :=
  { tabs := some [], cards := some [], activeTabId := "tab-1" }

/-- Import document with two tabs whose `activeTabId` is the second tab. -/
def secondActiveDoc : ImportDoc :=
  { tabs := some [{ id := "tab-a", name := "First", createdAt := 0 },
                  { id := "tab-b", name := "Second", createdAt := 0 }]
    cards := some []
    activeTabId := "tab-b" }

/-- The confirmed import of `emptyTabsDoc` into `twoCardWorld`. -/
def importEmptyTabs : World × ImportReport :=
  handleFileImport twoCardWorld (some (FileContent.document emptyTabsDoc)) true 0

/-- The confirmed import of `secondActiveDoc` into `twoCardWorld`. -/
def importSecondActive : World × ImportReport :=
  handleFileImport twoCardWorld (some (FileContent.document secondActiveDoc)) true 0

/-- Either the handler wrote neither `state` nor the storage slot, or it ended
with the slot holding the serialisation of `state`. -/
def Persisted (w w' : World) : Prop :=
  (w'.state = w.state ∧ w'.stored = w.stored) ∨ w'.stored = some w'.state

/-- Example world whose only card, the current one, has weight `n`. -/
def weightWorld (n : Int) : World :=
  { state := { (defaultState 0) with cards := [{ cardA with weight := some n }] }
    stored := none, currentCard := some (CardRef.inState 0), isCardRevealed := false
    editingTabId := none }

/-! # Theorems -/

/-! ## Selection (C1, C2) -/

theorem mem_activeCards (s : AppState) (p : Nat × Card) :
    p ∈ activeCards s ↔
      s.cards[p.1]? = some p.2 ∧ p.2.tabId = s.activeTabId ∧ p.2.isArchived = false := by
  obtain ⟨i, c⟩ := p
  simp only [activeCards, getCardsForTab, List.mem_filter, List.mk_mem_enum_iff_getElem?,
    beq_iff_eq, Bool.not_eq_true', and_assoc]

theorem walk_mem : ∀ (cs : List (Nat × Card)) (r : ℚ) (i : Nat),
    walk cs r = some i → ∃ p ∈ cs, p.1 = i
  | [], _, _, h => by simp [walk] at h
  | p :: rest, r, i, h => by
      simp only [walk] at h
      split at h
      · exact ⟨p, List.mem_cons_self _ _, by simpa using h⟩
      · obtain ⟨q, hq, hqi⟩ := walk_mem rest _ i h
        exact ⟨q, List.mem_cons_of_mem _ hq, hqi⟩

theorem selectNextCard_state (w : World) (rnd : ℚ) : (selectNextCard w rnd).state = w.state := by
  unfold selectNextCard
  split
  · rfl
  · dsimp only
    split <;> rfl

theorem selectNextCard_currentCard (w : World) (rnd : ℚ) :
    (activeCards w.state = [] ∧ (selectNextCard w rnd).currentCard = none) ∨
    ∃ p ∈ activeCards w.state,
      (selectNextCard w rnd).currentCard = some (CardRef.inState p.1) := by
  unfold selectNextCard
  split
  next h => exact Or.inl ⟨h, rfl⟩
  next first rest h =>
    right
    dsimp only
    split
    next i hi =>
      obtain ⟨p, hp, hpi⟩ := walk_mem _ _ _ hi
      exact ⟨p, h ▸ hp, by rw [hpi]⟩
    next => exact ⟨first, by rw [h]; exact List.mem_cons_self _ _, rfl⟩

/-- C1: `selectNextCard` selects, for every state and every draw, a card of
`state.cards` that belongs to the active tab and is not archived whenever such
a card exists (whatever the weights and whichever branch is taken), and sets
`currentCard` to `null` when none exists; `state` itself is not written. -/
theorem selectNextCard_eligible (w : World) (rnd : ℚ) :
    ((∃ c ∈ w.state.cards, c.tabId = w.state.activeTabId ∧ c.isArchived = false) →
      ∃ i c, (selectNextCard w rnd).currentCard = some (CardRef.inState i) ∧
        w.state.cards[i]? = some c ∧ c.tabId = w.state.activeTabId ∧ c.isArchived = false) ∧
    ((¬ ∃ c ∈ w.state.cards, c.tabId = w.state.activeTabId ∧ c.isArchived = false) →
      (selectNextCard w rnd).currentCard = none) ∧
    (selectNextCard w rnd).state = w.state := by
  refine ⟨?_, ?_, selectNextCard_state w rnd⟩
  · rintro ⟨c, hc, htab, harch⟩
    obtain ⟨n, hn⟩ := List.mem_iff_getElem?.1 hc
    have hmem : (n, c) ∈ activeCards w.state := (mem_activeCards _ _).2 ⟨hn, htab, harch⟩
    rcases selectNextCard_currentCard w rnd with ⟨hnil, _⟩ | ⟨p, hp, hcur⟩
    · rw [hnil] at hmem; cases hmem
    · obtain ⟨h1, h2, h3⟩ := (mem_activeCards _ _).1 hp
      exact ⟨p.1, p.2, hcur, h1, h2, h3⟩
  · intro hno
    rcases selectNextCard_currentCard w rnd with ⟨_, hcur⟩ | ⟨p, hp, _⟩
    · exact hcur
    · obtain ⟨h1, h2, h3⟩ := (mem_activeCards _ _).1 hp
      exact absurd ⟨p.2, List.mem_iff_getElem?.2 ⟨p.1, h1⟩, h2, h3⟩ hno

/-- Witness for C1: `twoCardWorld` has eligible cards, and the card selected
at the draw 1/2 is one of them. -/
theorem selectNextCard_eligible_witness :
    ∃ i c, (selectNextCard twoCardWorld (1 / 2)).currentCard = some (CardRef.inState i) ∧
      twoCardWorld.state.cards[i]? = some c ∧ c.tabId = twoCardWorld.state.activeTabId ∧
      c.isArchived = false :=
  (selectNextCard_eligible twoCardWorld (1 / 2)).1 ⟨cardA, by decide, rfl, rfl⟩

theorem foldl_weight_shift (cs : List (Nat × Card)) (a : Int) :
    cs.foldl (fun sum p => sum + weightOr1 p.2) a
      = a + cs.foldl (fun sum p => sum + weightOr1 p.2) 0 := by
  induction cs generalizing a with
  | nil => simp
  | cons p rest ih =>
      simp only [List.foldl_cons]
      rw [ih (a + weightOr1 p.2), ih (0 + weightOr1 p.2)]
      ring

theorem totalWeight_nil : totalWeight [] = 0 := rfl

theorem totalWeight_cons (p : Nat × Card) (cs : List (Nat × Card)) :
    totalWeight (p :: cs) = weightOr1 p.2 + totalWeight cs := by
  unfold totalWeight
  rw [List.foldl_cons, foldl_weight_shift]
  ring

/-- Sum of the weights of the first `k` cards of the walk. -/
theorem totalWeight_take_succ : ∀ (cs : List (Nat × Card)) (k : Nat) (hk : k < cs.length),
    totalWeight (cs.take (k + 1)) = totalWeight (cs.take k) + weightOr1 (cs[k]).2
  | [], k, hk => by simp at hk
  | p :: rest, 0, _ => by simp [totalWeight_cons, totalWeight_nil]
  | p :: rest, k + 1, hk => by
      have hk' : k < rest.length := by simpa using hk
      have ih := totalWeight_take_succ rest k hk'
      simp only [List.take_succ_cons, totalWeight_cons, List.getElem_cons_succ] at ih ⊢
      rw [ih]; ring

theorem totalWeight_take_mono (cs : List (Nat × Card))
    (hpos : ∀ p ∈ cs, 0 ≤ weightOr1 p.2) :
    ∀ (j k : Nat), j ≤ k → k ≤ cs.length →
      totalWeight (cs.take j) ≤ totalWeight (cs.take k) := by
  intro j k hjk
  induction k, hjk using Nat.le_induction with
  | base => intro _; exact le_refl _
  | succ k hjk ih =>
      intro hk
      have hk' : k < cs.length := hk
      rw [totalWeight_take_succ cs k hk']
      have := hpos _ (List.getElem_mem hk')
      have := ih (Nat.le_of_lt hk')
      omega

/-- The loop selects the card at position `k` exactly when `k` is the least
position whose cumulative weight reaches `r`. -/
theorem walk_eq_some_iff : ∀ (cs : List (Nat × Card)) (r : ℚ) (k : Nat) (hk : k < cs.length),
    (cs.map Prod.fst).Nodup →
    (walk cs r = some (cs[k]).1 ↔
      r ≤ (totalWeight (cs.take (k + 1)) : ℚ) ∧
        ∀ j < k, ((totalWeight (cs.take (j + 1)) : ℤ) : ℚ) < r)
  | [], _, k, hk, _ => by simp at hk
  | p :: rest, r, 0, _, hnd => by
      simp only [walk, List.getElem_cons_zero, List.take_succ_cons, List.take_zero,
        totalWeight_cons, totalWeight_nil, add_zero, Nat.not_lt_zero, false_imp_iff,
        implies_true, and_true]
      split
      next h => simp only [true_iff]; linarith
      next h =>
        constructor
        · intro hw
          obtain ⟨q, hq, hqi⟩ := walk_mem _ _ _ hw
          have : p.1 ∈ rest.map Prod.fst := List.mem_map.2 ⟨q, hq, hqi⟩
          simp only [List.map_cons, List.nodup_cons] at hnd
          exact absurd this hnd.1
        · intro hle
          exact absurd (by linarith) h
  | p :: rest, r, k + 1, hk, hnd => by
      have hk' : k < rest.length := by simpa using hk
      simp only [List.map_cons, List.nodup_cons] at hnd
      have ih := walk_eq_some_iff rest (r - (weightOr1 p.2 : ℚ)) k hk' hnd.2
      simp only [walk, List.getElem_cons_succ, List.take_succ_cons, totalWeight_cons,
        Int.cast_add]
      split
      next h =>
        constructor
        · intro hw
          have h1 : p.1 = (rest[k]).1 := by simpa using hw
          have : p.1 ∈ rest.map Prod.fst :=
            List.mem_map.2 ⟨rest[k], List.getElem_mem hk', h1.symm⟩
          exact absurd this hnd.1
        · rintro ⟨_, hall⟩
          have := hall 0 (Nat.succ_pos k)
          simp only [List.take_zero, totalWeight_nil, Int.cast_zero, add_zero] at this
          exact absurd (by linarith) (not_le.2 this)
      next h =>
        rw [ih]
        constructor
        · rintro ⟨hle, hall⟩
          refine ⟨by linarith, ?_⟩
          intro j hj
          cases j with
          | zero =>
              simp only [List.take_zero, totalWeight_nil, Int.cast_zero, add_zero]
              linarith
          | succ j =>
              have := hall j (by omega)
              linarith
        · rintro ⟨hle, hall⟩
          refine ⟨by linarith, ?_⟩
          intro j hj
          have := hall (j + 1) (by omega)
          linarith

theorem walk_isSome_of_pos : ∀ (cs : List (Nat × Card)) (r : ℚ),
    0 < r → r < (totalWeight cs : ℚ) → walk cs r ≠ none
  | [], r, h0, hr => by
      simp only [totalWeight_nil, Int.cast_zero] at hr
      exact absurd h0 (not_lt.2 hr.le)
  | p :: rest, r, h0, hr => by
      simp only [walk]
      split
      · simp
      next h =>
        apply walk_isSome_of_pos rest
        · linarith
        · simp only [totalWeight_cons, Int.cast_add] at hr
          linarith

theorem walk_ne_none (cs : List (Nat × Card)) (r : ℚ) (hne : cs ≠ [])
    (hr : r < (totalWeight cs : ℚ)) : walk cs r ≠ none := by
  cases cs with
  | nil => exact absurd rfl hne
  | cons p rest =>
      simp only [walk]
      split
      · simp
      next h =>
        apply walk_isSome_of_pos rest
        · linarith
        · simp only [totalWeight_cons, Int.cast_add] at hr
          linarith

theorem activeCards_nodup (s : AppState) : ((activeCards s).map Prod.fst).Nodup := by
  unfold activeCards getCardsForTab
  refine List.Nodup.sublist ?_ (List.nodup_enum_map_fst s.cards)
  exact ((List.filter_sublist _).trans (List.filter_sublist _)).map _

theorem selectNextCard_of_walk (w : World) (rnd : ℚ) (i : Nat)
    (h : walk (activeCards w.state) (rnd * (totalWeight (activeCards w.state) : ℚ)) = some i) :
    (selectNextCard w rnd).currentCard = some (CardRef.inState i) := by
  unfold selectNextCard
  split
  next hnil => rw [hnil] at h; simp [walk] at h
  next first rest hcs =>
    rw [hcs] at h
    simp only [h]

theorem weightOr1_of_pos (c : Card) (n : Int) (h : c.weight = some n) (hn : 1 ≤ n) :
    weightOr1 c = n := by
  unfold weightOr1
  rw [h]
  simp only
  rw [if_neg (by omega)]

/-- C2: for a non-empty eligible sequence with integer weights `≥ 1` and a
draw `r` with `0 ≤ r < W` (the value of `Math.random() * totalWeight`, in exact
arithmetic), the loop of `selectNextCard` always selects (the fallback is not
reached); the card at position `k` of the eligible sequence is selected exactly
when `k` is the least position whose cumulative weight is `≥ r`, that is
exactly when `r` lies between the cumulative weight before `k` (exclusive, or
`r = 0` at the first position) and the cumulative weight up to `k` (inclusive);
the two bounds differ by exactly the weight of that card. -/
theorem selectNextCard_weighted (w : World) (r : ℚ)
    (hne : activeCards w.state ≠ [])
    (hpos : ∀ p ∈ activeCards w.state, ∃ n : Int, p.2.weight = some n ∧ 1 ≤ n)
    (h0 : 0 ≤ r) (hr : r < (totalWeight (activeCards w.state) : ℚ)) :
    walk (activeCards w.state)
        (r / (totalWeight (activeCards w.state) : ℚ) * (totalWeight (activeCards w.state) : ℚ))
      ≠ none ∧
    (∃ k, ∃ hk : k < (activeCards w.state).length,
      (selectNextCard w (r / (totalWeight (activeCards w.state) : ℚ))).currentCard
        = some (CardRef.inState ((activeCards w.state)[k]).1)) ∧
    ∀ (k : Nat) (hk : k < (activeCards w.state).length),
      ((selectNextCard w (r / (totalWeight (activeCards w.state) : ℚ))).currentCard
          = some (CardRef.inState ((activeCards w.state)[k]).1) ↔
        r ≤ (totalWeight ((activeCards w.state).take (k + 1)) : ℚ) ∧
          ∀ j < k, (totalWeight ((activeCards w.state).take (j + 1)) : ℚ) < r) ∧
      ((selectNextCard w (r / (totalWeight (activeCards w.state) : ℚ))).currentCard
          = some (CardRef.inState ((activeCards w.state)[k]).1) ↔
        ((totalWeight ((activeCards w.state).take k) : ℚ) < r ∨ k = 0) ∧
          r ≤ (totalWeight ((activeCards w.state).take (k + 1)) : ℚ)) ∧
      ((activeCards w.state)[k]).2.weight
        = some (totalWeight ((activeCards w.state).take (k + 1))
            - totalWeight ((activeCards w.state).take k)) := by
  have hW : (0 : ℚ) < (totalWeight (activeCards w.state) : ℚ) := lt_of_le_of_lt h0 hr
  have hcancel : r / (totalWeight (activeCards w.state) : ℚ)
      * (totalWeight (activeCards w.state) : ℚ) = r := div_mul_cancel₀ r (ne_of_gt hW)
  have hwalk : walk (activeCards w.state) r ≠ none := walk_ne_none _ _ hne hr
  obtain ⟨i, hi⟩ := Option.ne_none_iff_exists'.1 hwalk
  have hsel : (selectNextCard w (r / (totalWeight (activeCards w.state) : ℚ))).currentCard
      = some (CardRef.inState i) :=
    selectNextCard_of_walk w _ i (by rw [hcancel]; exact hi)
  have hnonneg : ∀ p ∈ activeCards w.state, 0 ≤ weightOr1 p.2 := by
    intro p hp
    obtain ⟨n, hn, h1⟩ := hpos p hp
    rw [weightOr1_of_pos _ n hn h1]; omega
  refine ⟨by rw [hcancel]; exact hwalk, ?_, ?_⟩
  · obtain ⟨p, hp, hpi⟩ := walk_mem _ _ _ hi
    obtain ⟨k, hk, hkp⟩ := List.getElem_of_mem hp
    exact ⟨k, hk, by rw [hsel, hkp, hpi]⟩
  · intro k hk
    have hiff : (selectNextCard w (r / (totalWeight (activeCards w.state) : ℚ))).currentCard
          = some (CardRef.inState ((activeCards w.state)[k]).1) ↔
        r ≤ (totalWeight ((activeCards w.state).take (k + 1)) : ℚ) ∧
          ∀ j < k, (totalWeight ((activeCards w.state).take (j + 1)) : ℚ) < r := by
      rw [← walk_eq_some_iff _ r k hk (activeCards_nodup _), hsel, hi]
      constructor
      · intro h; injection h with h; injection h with h; rw [h]
      · intro h; injection h with h; rw [h]
    refine ⟨hiff, ?_, ?_⟩
    · rw [hiff]
      constructor
      · rintro ⟨hle, hall⟩
        refine ⟨?_, hle⟩
        cases k with
        | zero => exact Or.inr rfl
        | succ k => exact Or.inl (hall k (Nat.lt_succ_self k))
      · rintro ⟨hlt, hle⟩
        refine ⟨hle, ?_⟩
        intro j hj
        rcases hlt with hlt | hk0
        · have hmono := totalWeight_take_mono _ hnonneg (j + 1) k hj (Nat.le_of_lt hk)
          have : ((totalWeight ((activeCards w.state).take (j + 1)) : ℤ) : ℚ)
              ≤ (totalWeight ((activeCards w.state).take k) : ℚ) := by exact_mod_cast hmono
          linarith
        · omega
    · obtain ⟨n, hn, h1⟩ := hpos _ (List.getElem_mem hk)
      rw [totalWeight_take_succ _ k hk, weightOr1_of_pos _ n hn h1, hn]
      congr 1; ring

theorem activeCards_twoCardWorld :
    activeCards twoCardWorld.state = [(0, cardA), (1, cardB)] := by decide

theorem twoCardWorld_hyps :
    activeCards twoCardWorld.state ≠ [] ∧
    (∀ p ∈ activeCards twoCardWorld.state, ∃ n : Int, p.2.weight = some n ∧ 1 ≤ n) ∧
    totalWeight (activeCards twoCardWorld.state) = 4 ∧
    totalWeight ((activeCards twoCardWorld.state).take 1) = 1 ∧
    totalWeight ((activeCards twoCardWorld.state).take 2) = 4 := by
  rw [activeCards_twoCardWorld]
  refine ⟨by simp, ?_, by decide, by decide, by decide⟩
  intro p hp
  simp only [List.mem_cons, List.mem_singleton, List.not_mem_nil, or_false] at hp
  rcases hp with rfl | rfl
  · exact ⟨1, rfl, le_refl _⟩
  · exact ⟨3, rfl, by decide⟩

/-- Witness for C2: with eligible weights 1 and 3 (total 4) the draw `r = 2`
selects the second card, and the draws in `[0, 4)` that select the second card
are exactly those of the open interval `(1, 4)`. -/
theorem selectNextCard_weighted_witness :
    (selectNextCard twoCardWorld (2 / 4)).currentCard = some (CardRef.inState 1) ∧
    {r : ℚ | 0 ≤ r ∧ r < 4 ∧
        (selectNextCard twoCardWorld (r / 4)).currentCard = some (CardRef.inState 1)}
      = Set.Ioo 1 4 := by
  obtain ⟨hne, hpos, hW, hP1, hP2⟩ := twoCardWorld_hyps
  have hlen : 1 < (activeCards twoCardWorld.state).length := by
    rw [activeCards_twoCardWorld]; decide
  have hidx : ((activeCards twoCardWorld.state)[1]).1 = 1 := by
    simp only [activeCards_twoCardWorld]; rfl
  have key : ∀ r : ℚ, 0 ≤ r → r < 4 →
      ((selectNextCard twoCardWorld (r / 4)).currentCard = some (CardRef.inState 1) ↔
        1 < r) := by
    intro r h0 hr
    have h := ((selectNextCard_weighted twoCardWorld r hne hpos h0
      (by rw [hW]; exact_mod_cast hr)).2.2 1 hlen).2.1
    rw [hidx, hW, hP1, hP2] at h
    simp only [Int.cast_ofNat, Int.cast_one] at h
    rw [h]
    exact ⟨fun h => h.1.resolve_right (by decide), fun h => ⟨Or.inl h, hr.le⟩⟩
  refine ⟨(key 2 (by norm_num) (by norm_num)).2 (by norm_num), ?_⟩
  ext r
  simp only [Set.mem_setOf_eq, Set.mem_Ioo]
  constructor
  · rintro ⟨h0, hr, hsel⟩
    exact ⟨(key r h0 hr).1 hsel, hr⟩
  · rintro ⟨h1, hr⟩
    have h0 : (0 : ℚ) ≤ r := by linarith
    exact ⟨h0, hr, (key r h0 hr).2 h1⟩

/-! ## Rating (C3) -/

theorem modify_eq_set_of_getElem? {α : Type} (f : α → α) :
    ∀ (l : List α) (i : Nat) (a : α), l[i]? = some a → l.modify f i = l.set i (f a)
  | [], i, a, h => by simp at h
  | x :: l, 0, a, h => by
      simp only [List.getElem?_cons_zero, Option.some.injEq] at h
      simp [h]
  | x :: l, i + 1, a, h => by
      simp only [List.getElem?_cons_succ] at h
      simp [modify_eq_set_of_getElem? f l i a h]

theorem refreshCard_state (w : World) (rnd : ℚ) : (refreshCard w rnd).state = w.state := by
  simp [refreshCard, renderCard, selectNextCard_state]

theorem refreshCard_stored (w : World) (rnd : ℚ) : (refreshCard w rnd).stored = w.stored := by
  unfold refreshCard renderCard selectNextCard
  split
  · rfl
  · dsimp only
    split <;> rfl

theorem saveState_state (w : World) : (saveState w).state = w.state := rfl

theorem rateCard_state (w : World) (isCorrect : Bool) (rnd : ℚ) (c : Card)
    (hcur : w.currentCardObj = some c) :
    (rateCard w isCorrect rnd).state
      = (w.updateCurrent (fun c => { c with weight := some (ratedWeight isCorrect c) })).state := by
  unfold rateCard
  rw [hcur]
  simp only [refreshCard_state, saveState_state]

theorem rateCard_inState (w : World) (isCorrect : Bool) (rnd : ℚ) (c : Card) (i : Nat)
    (hi : w.currentCard = some (CardRef.inState i)) (hc : w.state.cards[i]? = some c) :
    (rateCard w isCorrect rnd).state
      = { w.state with cards :=
            w.state.cards.set i { c with weight := some (ratedWeight isCorrect c) } } := by
  have hcur : w.currentCardObj = some c := by simp [World.currentCardObj, hi, hc]
  rw [rateCard_state w isCorrect rnd c hcur]
  simp only [World.updateCurrent, hi]
  rw [modify_eq_set_of_getElem? _ _ _ _ hc]

theorem rateCard_detached (w : World) (isCorrect : Bool) (rnd : ℚ) (d : Card)
    (hd : w.currentCard = some (CardRef.detached d)) :
    (rateCard w isCorrect rnd).state = w.state := by
  have hcur : w.currentCardObj = some d := by simp [World.currentCardObj, hd]
  rw [rateCard_state w isCorrect rnd d hcur]
  simp only [World.updateCurrent, hd]

theorem roundBinary64_of_le (x : Int) (h : x.natAbs ≤ 2 ^ 53) : roundBinary64 x = x := by
  unfold roundBinary64
  simp only
  rw [if_pos h]

theorem ratedWeight_true (c : Card) (n : Int) (h : c.weight = some n) (hn : 1 ≤ n)
    (hmax : n ≤ 2 ^ 53) : ratedWeight true c = max 1 (n - 1) := by
  simp only [ratedWeight, weightOr1_of_pos c n h hn, if_true]
  rw [roundBinary64_of_le _ (by omega)]

theorem ratedWeight_false (c : Card) (n : Int) (h : c.weight = some n) (hn : 1 ≤ n)
    (hmax : n + 2 ≤ 2 ^ 53) : ratedWeight false c = n + 2 := by
  simp only [ratedWeight, weightOr1_of_pos c n h hn, Bool.false_eq_true, if_false]
  rw [roundBinary64_of_le _ (by omega)]

theorem ulpOf_two (a : Nat) (h1 : 2 ^ 53 ≤ a) (h2 : a < 2 ^ 54) : ulpOf 1024 a = 2 := by
  have e1 : ulpOf 1024 a = if a < 2 ^ 53 then 1 else 2 * ulpOf 1023 (a / 2) := rfl
  have e2 : ulpOf 1023 (a / 2) = if a / 2 < 2 ^ 53 then 1 else 2 * ulpOf 1022 (a / 2 / 2) := rfl
  rw [e1, if_neg (by omega), e2, if_pos (by omega)]

theorem roundBinary64_even (x : Int) (h1 : 2 ^ 53 < x) (h2 : x ≤ 2 ^ 54) (he : x % 2 = 0) :
    roundBinary64 x = x := by
  rcases eq_or_lt_of_le h2 with h | h
  · subst h; decide
  · obtain ⟨a, rfl⟩ := Int.eq_ofNat_of_zero_le (by omega : 0 ≤ x)
    have ha1 : 2 ^ 53 < a := by exact_mod_cast h1
    have ha2 : a < 2 ^ 54 := by exact_mod_cast h
    have hae : a % 2 = 0 := by omega
    unfold roundBinary64
    simp only [Int.natAbs_ofNat]
    rw [if_neg (by omega), ulpOf_two a (by omega) ha2]
    have hr : a % 2 = 0 := hae
    rw [hr]
    simp only [Nat.mul_zero, Nat.zero_lt_succ, if_true]
    have hs : Int.sign (a : Int) = 1 := Int.sign_eq_one_of_pos (by omega)
    rw [hs, one_mul]
    congr 1
    omega

theorem ratedWeight_false_even (c : Card) (n : Int) (h : c.weight = some n) (hn : 1 ≤ n)
    (he : n % 2 = 0) (hmax : n + 2 ≤ 2 ^ 54) : ratedWeight false c = n + 2 := by
  by_cases hsmall : n + 2 ≤ 2 ^ 53
  · exact ratedWeight_false c n h hn hsmall
  · simp only [ratedWeight, weightOr1_of_pos c n h hn, Bool.false_eq_true, if_false]
    exact roundBinary64_even _ (by omega) hmax (by omega)

theorem one_le_ratedWeight_true (c : Card) : 1 ≤ ratedWeight true c := by
  simp only [ratedWeight, if_true]
  exact le_max_left _ _

theorem set_getElem?_self {α : Type} (l : List α) (i : Nat) (a : α) (h : l[i]? = some a) :
    l.set i a = l := by
  apply List.ext_getElem?
  intro j
  rw [List.getElem?_set]
  split
  next hij =>
    subst hij
    split
    · exact h.symm
    next hlt => exact (List.getElem?_eq_none (not_lt.1 hlt)).symm
  · rfl

/-- C3 (amended): when the current card has an integer weight `n ≥ 1`,
`rateCard` writes nothing but that card's `weight`: every other field of the
card, every other card, the tabs and `activeTabId` are as before (a current
card that is no longer part of `state` leaves `state` as it was).
`rateCard(true)` stores `max(1, n - 1)` when `n ≤ 2 ^ 53`, and
`rateCard(false)` stores `n + 2` when `n + 2 ≤ 2 ^ 53` or when `n` is even and
`n + 2 ≤ 2 ^ 54`: the cases in which the binary64 difference and sum are
exact.  The weight stored by a correct rating
is never below 1, and a card of weight 1 is left as it is by a correct rating,
hence by any number of them. -/
theorem rateCard_weight (w : World) (c : Card) (n : Int) (rnd : ℚ)
    (hcur : w.currentCardObj = some c) (hw : c.weight = some n) (hn : 1 ≤ n) :
    (∀ i, w.currentCard = some (CardRef.inState i) → ∀ isCorrect : Bool, ∃ m : Int,
      (rateCard w isCorrect rnd).state
        = { w.state with cards := w.state.cards.set i { c with weight := some m } }) ∧
    (∀ i, w.currentCard = some (CardRef.inState i) →
      (n ≤ 2 ^ 53 →
        (rateCard w true rnd).state
          = { w.state with cards :=
                w.state.cards.set i { c with weight := some (max 1 (n - 1)) } }) ∧
      (n + 2 ≤ 2 ^ 53 ∨ (n % 2 = 0 ∧ n + 2 ≤ 2 ^ 54) →
        (rateCard w false rnd).state
          = { w.state with cards :=
                w.state.cards.set i { c with weight := some (n + 2) } })) ∧
    (∀ d, w.currentCard = some (CardRef.detached d) →
      (rateCard w true rnd).state = w.state ∧ (rateCard w false rnd).state = w.state) ∧
    1 ≤ ratedWeight true c ∧
    (n = 1 → (rateCard w true rnd).state = w.state ∧
      ∀ k : Nat, (fun x : Card => { x with weight := some (ratedWeight true x) })^[k] c = c) := by
  refine ⟨?_, ?_, ?_, one_le_ratedWeight_true c, ?_⟩
  · intro i hi isCorrect
    have hc : w.state.cards[i]? = some c := by
      simpa [World.currentCardObj, hi] using hcur
    exact ⟨ratedWeight isCorrect c, rateCard_inState w isCorrect rnd c i hi hc⟩
  · intro i hi
    have hc : w.state.cards[i]? = some c := by
      simpa [World.currentCardObj, hi] using hcur
    constructor
    · intro hmax
      rw [rateCard_inState w true rnd c i hi hc, ratedWeight_true c n hw hn hmax]
    · intro hmax
      rw [rateCard_inState w false rnd c i hi hc]
      rcases hmax with hmax | ⟨he, hmax⟩
      · rw [ratedWeight_false c n hw hn hmax]
      · rw [ratedWeight_false_even c n hw hn he hmax]
  · intro d hd
    exact ⟨rateCard_detached w true rnd d hd, rateCard_detached w false rnd d hd⟩
  · intro h1
    subst h1
    have hfix : ({ c with weight := some (ratedWeight true c) } : Card) = c := by
      rw [ratedWeight_true c 1 hw hn (by decide)]
      cases c
      simp only [Card.mk.injEq, true_and, and_true] at hw ⊢
      rw [hw]; rfl
    constructor
    · rw [rateCard_state w true rnd c hcur]
      unfold World.updateCurrent
      split
      · rfl
      next i hi =>
        have hc : w.state.cards[i]? = some c := by
          simpa [World.currentCardObj, hi] using hcur
        simp only
        rw [modify_eq_set_of_getElem? _ _ _ _ hc, hfix, set_getElem?_self _ _ _ hc]
      next d hd => rfl
    · intro k
      induction k with
      | zero => rfl
      | succ k ih => rw [Function.iterate_succ_apply', ih, hfix]

/-- Witness for C3: the second card of `twoCardWorld` (weight 3) is current. -/
theorem rateCard_weight_witness :
    (rateCard { twoCardWorld with currentCard := some (CardRef.inState 1) } true 0).state.cards
        = [cardA, { cardB with weight := some 2 }] ∧
    (rateCard { twoCardWorld with currentCard := some (CardRef.inState 1) } false 0).state.cards
        = [cardA, { cardB with weight := some 5 }] := by
  have h := (rateCard_weight { twoCardWorld with currentCard := some (CardRef.inState 1) }
    cardB 3 0 rfl rfl (by decide)).2.1 1 rfl
  rw [h.1 (by decide), h.2 (Or.inl (by decide))]
  exact ⟨rfl, rfl⟩

/-- Counterexample to C3 as stated.  The current card has the integer weight
`2 ^ 53 - 1 = 9007199254740991`: `rateCard(false)` stores `9007199254740992`,
the binary64 value of the sum, not `9007199254740993`.  The current card has
the integer weight `2 ^ 53 + 2 = 9007199254740994`: `rateCard(true)` stores
`9007199254740992`, not `9007199254740993`. -/
theorem rateCard_weight_counterexample :
    ((weightWorld 9007199254740991).currentCardObj
        = some { cardA with weight := some 9007199254740991 } ∧
      (rateCard (weightWorld 9007199254740991) false 0).state.cards.map (fun c => c.weight)
        = [some 9007199254740992] ∧
      (rateCard (weightWorld 9007199254740991) false 0).state.cards.map (fun c => c.weight)
        ≠ [some (9007199254740991 + 2)]) ∧
    ((weightWorld 9007199254740994).currentCardObj
        = some { cardA with weight := some 9007199254740994 } ∧
      (rateCard (weightWorld 9007199254740994) true 0).state.cards.map (fun c => c.weight)
        = [some 9007199254740992] ∧
      (rateCard (weightWorld 9007199254740994) true 0).state.cards.map (fun c => c.weight)
        ≠ [some (max 1 (9007199254740994 - 1))]) := by
  have h1 := rateCard_inState (weightWorld 9007199254740991) false 0
    { cardA with weight := some 9007199254740991 } 0 rfl rfl
  have h2 := rateCard_inState (weightWorld 9007199254740994) true 0
    { cardA with weight := some 9007199254740994 } 0 rfl rfl
  rw [h1, h2]
  refine ⟨⟨rfl, by decide, by decide⟩, rfl, by decide, by decide⟩

/-! ## Creating a card (C8) -/

theorem dropWhile_head_not {α : Type} (p : α → Bool) :
    ∀ (l : List α) (a : α) (t : List α), l.dropWhile p = a :: t → p a = false
  | [], a, t, h => by simp at h
  | x :: l, a, t, h => by
      rw [List.dropWhile_cons] at h
      split at h
      · exact dropWhile_head_not p l a t h
      next hx =>
        simp only [List.cons.injEq] at h
        rw [← h.1]
        simpa using hx

/-- Trimming leaves nothing exactly when every character is white space. -/
theorem jsTrim_eq_empty_iff (s : String) :
    jsTrim s = "" ↔ ∀ ch ∈ s.data, isJsSpace ch = true := by
  unfold jsTrim
  have hmk : ∀ l : List Char, String.mk l = "" ↔ l = [] := by
    intro l
    constructor
    · intro h
      have := congrArg String.data h
      simpa using this
    · intro h; rw [h]
  rw [hmk, List.reverse_eq_nil_iff, List.dropWhile_eq_nil_iff]
  constructor
  · intro h
    cases hd : s.data.dropWhile isJsSpace with
    | nil => exact List.dropWhile_eq_nil_iff.1 hd
    | cons a t =>
        have hna := dropWhile_head_not isJsSpace _ a t hd
        have := h a (by rw [hd]; simp)
        rw [hna] at this
        cases this
  · intro h x hx
    have : s.data.dropWhile isJsSpace = [] := List.dropWhile_eq_nil_iff.2 h
    rw [this] at hx
    simp at hx

/-- C8: `handleSaveCard` returns without writing anything when the trimmed
front or the trimmed back is empty (that is, when all its characters are
white space); otherwise it appends exactly one card, with the trimmed texts,
`tabId` equal to `activeTabId`, weight 3 and `isArchived` false, and leaves
the existing cards, the tabs and `activeTabId` as they were. -/
theorem handleSaveCard_effect (w : World) (inputFront inputBack : String) (tId tCreated : Nat) :
    ((jsTrim inputFront = "" ∨ jsTrim inputBack = "") →
      handleSaveCard w inputFront inputBack tId tCreated = w) ∧
    ((jsTrim inputFront ≠ "" ∧ jsTrim inputBack ≠ "") →
      (handleSaveCard w inputFront inputBack tId tCreated).state
        = { w.state with cards := w.state.cards ++
              [{ id := "card-" ++ toString tId
                 tabId := w.state.activeTabId
                 front := jsTrim inputFront
                 back := jsTrim inputBack
                 weight := some 3
                 isArchived := false
                 createdAt := tCreated }] }) ∧
    (jsTrim inputFront = "" ↔ ∀ ch ∈ inputFront.data, isJsSpace ch = true) ∧
    (jsTrim inputBack = "" ↔ ∀ ch ∈ inputBack.data, isJsSpace ch = true) := by
  refine ⟨?_, ?_, jsTrim_eq_empty_iff _, jsTrim_eq_empty_iff _⟩
  · intro h
    unfold handleSaveCard
    simp only
    rw [if_pos]
    rcases h with h | h <;> simp [truthy, h]
  · rintro ⟨hf, hb⟩
    unfold handleSaveCard
    simp only
    rw [if_neg]
    · rfl
    · simp [truthy, hf, hb]

/-- Witness for C8: blank front rejected, padded texts trimmed and stored. -/
theorem handleSaveCard_effect_witness :
    handleSaveCard twoCardWorld "  " "A" 7 8 = twoCardWorld ∧
    (handleSaveCard twoCardWorld " Q3 " "A3" 7 8).state.cards
      = [cardA, cardB,
          { id := "card-7", tabId := "tab-1", front := "Q3", back := "A3", weight := some 3,
            isArchived := false, createdAt := 8 }] := by
  have h := handleSaveCard_effect twoCardWorld
  refine ⟨(h "  " "A" 7 8).1 (Or.inl (by decide)), ?_⟩
  rw [(h " Q3 " "A3" 7 8).2.1 ⟨by decide, by decide⟩]
  decide

/-! ## The scenario of C9 -/

theorem selectNextCard_single (w : World) (c : Card) (rnd : ℚ)
    (hcards : w.state.cards = [c]) (htab : c.tabId = w.state.activeTabId)
    (harch : c.isArchived = false) :
    (selectNextCard w rnd).currentCard = some (CardRef.inState 0) := by
  have hact : activeCards w.state = [(0, c)] := by
    simp [activeCards, getCardsForTab, hcards, List.enum, List.enumFrom, htab, harch]
  rcases selectNextCard_currentCard w rnd with ⟨hnil, _⟩ | ⟨p, hp, hcur⟩
  · rw [hact] at hnil; cases hnil
  · rw [hact, List.mem_singleton] at hp
    rw [hcur, hp]

theorem refreshCard_single (w : World) (c : Card) (rnd : ℚ)
    (hcards : w.state.cards = [c]) (htab : c.tabId = w.state.activeTabId)
    (harch : c.isArchived = false) :
    (refreshCard w rnd).currentCard = some (CardRef.inState 0) := by
  unfold refreshCard renderCard
  exact selectNextCard_single w c rnd hcards htab harch

theorem rateCard_single (w : World) (c : Card) (isCorrect : Bool) (rnd : ℚ)
    (hcards : w.state.cards = [c]) (hcur : w.currentCard = some (CardRef.inState 0))
    (htab : c.tabId = w.state.activeTabId) (harch : c.isArchived = false) :
    (rateCard w isCorrect rnd).state
        = { w.state with cards := [{ c with weight := some (ratedWeight isCorrect c) }] } ∧
    (rateCard w isCorrect rnd).currentCard = some (CardRef.inState 0) := by
  have hc : w.state.cards[0]? = some c := by rw [hcards]; rfl
  have hst := rateCard_inState w isCorrect rnd c 0 hcur hc
  rw [hcards] at hst
  refine ⟨hst, ?_⟩
  have hobj : w.currentCardObj = some c := by simp [World.currentCardObj, hcur, hc]
  unfold rateCard
  rw [hobj]
  simp only
  apply refreshCard_single _ { c with weight := some (ratedWeight isCorrect c) }
  · simp [saveState, World.updateCurrent, hcur, hcards]
  · simpa [saveState, World.updateCurrent, hcur] using htab
  · exact harch

theorem scenarioAdded_spec (x : ScenarioInputs) :
    (scenarioAdded x).state = { (defaultState x.t0) with cards := [scenarioCard x 3] } ∧
    (scenarioAdded x).currentCard = some (CardRef.inState 0) := by
  have hst : (scenarioAdded x).state
      = { (defaultState x.t0) with cards := [scenarioCard x 3] } := by
    simp only [scenarioAdded, switchView, refreshCard_state, init, showFlashcardView]
    rfl
  refine ⟨hst, ?_⟩
  unfold scenarioAdded
  simp only [switchView]
  apply refreshCard_single _ (scenarioCard x 3)
  · rfl
  · rfl
  · rfl

/-- The weights observed along the scenario, for all readings of the clock
and all random draws. -/
theorem scenario_trace (x : ScenarioInputs) :
    (scenarioAdded x).state = { (defaultState x.t0) with cards := [scenarioCard x 3] } ∧
    (scenarioAdded x).currentCard = some (CardRef.inState 0) ∧
    (scenarioMissed x).state = { (defaultState x.t0) with cards := [scenarioCard x 5] } ∧
    (scenarioMissed x).currentCard = some (CardRef.inState 0) ∧
    (scenarioRecalled x).state = { (defaultState x.t0) with cards := [scenarioCard x 4] } ∧
    (scenarioRecalled x).currentCard = some (CardRef.inState 0) ∧
    (scenarioRecalledTwice x).state
      = { (defaultState x.t0) with cards := [scenarioCard x 3] } ∧
    (scenarioRecalledTwice x).currentCard = some (CardRef.inState 0) := by
  obtain ⟨h0s, h0c⟩ := scenarioAdded_spec x
  obtain ⟨h1s, h1c⟩ := rateCard_single (scenarioAdded x) (scenarioCard x 3) false x.r2
    (by rw [h0s]) h0c (by rw [h0s]; rfl) rfl
  have h1s' : (scenarioMissed x).state
      = { (defaultState x.t0) with cards := [scenarioCard x 5] } := by
    unfold scenarioMissed; rw [h1s, h0s]; rfl
  obtain ⟨h2s, h2c⟩ := rateCard_single (scenarioMissed x) (scenarioCard x 5) true x.r3
    (by rw [h1s']) h1c (by rw [h1s']; rfl) rfl
  have h2s' : (scenarioRecalled x).state
      = { (defaultState x.t0) with cards := [scenarioCard x 4] } := by
    unfold scenarioRecalled; rw [h2s, h1s']; rfl
  obtain ⟨h3s, h3c⟩ := rateCard_single (scenarioRecalled x) (scenarioCard x 4) true x.r4
    (by rw [h2s']) h2c (by rw [h2s']; rfl) rfl
  have h3s' : (scenarioRecalledTwice x).state
      = { (defaultState x.t0) with cards := [scenarioCard x 3] } := by
    unfold scenarioRecalledTwice; rw [h3s, h2s']; rfl
  exact ⟨h0s, h0c, h1s', h1c, h2s', h2c, h3s', h3c⟩

/-- C9 (amended): from the default state, after adding the card `Q1` / `A1`
the selection returns that card for every random draw; after `rateCard(false)`
its weight is 5; after `rateCard(true)` it is 4, and after a second
`rateCard(true)` it is 3.  The card stays the selected one throughout. -/
theorem scenario_weights (x : ScenarioInputs) :
    (scenarioAdded x).state.cards = [scenarioCard x 3] ∧
    (scenarioAdded x).currentCardObj = some (scenarioCard x 3) ∧
    (scenarioMissed x).currentCardObj = some (scenarioCard x 5) ∧
    (scenarioRecalled x).currentCardObj = some (scenarioCard x 4) ∧
    (scenarioRecalledTwice x).currentCardObj = some (scenarioCard x 3) ∧
    (scenarioRecalledTwice x).state.cards = [scenarioCard x 3] ∧
    (scenarioRecalledTwice x).state.tabs = (defaultState x.t0).tabs := by
  obtain ⟨h0s, h0c, h1s, h1c, h2s, h2c, h3s, h3c⟩ := scenario_trace x
  refine ⟨by rw [h0s], ?_, ?_, ?_, ?_, by rw [h3s], by rw [h3s]⟩
  · simp [World.currentCardObj, h0s, h0c]
  · simp [World.currentCardObj, h1s, h1c]
  · simp [World.currentCardObj, h2s, h2c]
  · simp [World.currentCardObj, h3s, h3c]

/-- Counterexample to C9 as stated: with every clock reading and every draw
equal to 0 the weight is 4 after the first correct rating and 3 after the
second, not 3 and then 2. -/
theorem scenario_weights_counterexample :
    (scenarioMissed ⟨0, 0, 0, 0, 0, 0, 0, 0⟩).state.cards.map (fun c => c.weight) = [some 5] ∧
    (scenarioRecalled ⟨0, 0, 0, 0, 0, 0, 0, 0⟩).state.cards.map (fun c => c.weight)
      = [some 4] ∧
    (scenarioRecalledTwice ⟨0, 0, 0, 0, 0, 0, 0, 0⟩).state.cards.map (fun c => c.weight)
      = [some 3] ∧
    ¬ ((scenarioRecalled ⟨0, 0, 0, 0, 0, 0, 0, 0⟩).state.cards.map (fun c => c.weight)
          = [some 3] ∧
        (scenarioRecalledTwice ⟨0, 0, 0, 0, 0, 0, 0, 0⟩).state.cards.map (fun c => c.weight)
          = [some 2]) := by
  obtain ⟨_, _, h1s, _, h2s, _, h3s, _⟩ := scenario_trace ⟨0, 0, 0, 0, 0, 0, 0, 0⟩
  rw [h1s, h2s, h3s]
  decide

/-! ## The `activeTabId` invariant (C4) -/

theorem sameTabs_refl (w : World) : SameTabs w w := ⟨rfl, rfl⟩

theorem updateCurrent_sameTabs (w : World) (f : Card → Card) :
    SameTabs w (w.updateCurrent f) := by
  unfold World.updateCurrent
  split <;> exact ⟨rfl, rfl⟩

theorem refreshCard_sameTabs (w w' : World) (rnd : ℚ) (h : SameTabs w w') :
    SameTabs w (refreshCard w' rnd) := by
  unfold SameTabs at h ⊢
  rw [refreshCard_state]
  exact h

theorem rateCard_sameTabs (w : World) (isCorrect : Bool) (rnd : ℚ) :
    SameTabs w (rateCard w isCorrect rnd) := by
  unfold rateCard
  split
  · exact sameTabs_refl w
  · exact refreshCard_sameTabs _ _ _ (updateCurrent_sameTabs w _)

theorem deleteCurrentCard_sameTabs (w : World) (confirmed : Bool) (rnd : ℚ) :
    SameTabs w (deleteCurrentCard w confirmed rnd) := by
  unfold deleteCurrentCard
  split
  · exact sameTabs_refl w
  · split
    · exact refreshCard_sameTabs _ _ _ ⟨rfl, rfl⟩
    · exact sameTabs_refl w

theorem archiveCurrentCard_sameTabs (w : World) (rnd : ℚ) :
    SameTabs w (archiveCurrentCard w rnd) := by
  unfold archiveCurrentCard
  split
  · exact sameTabs_refl w
  · exact refreshCard_sameTabs _ _ _ (updateCurrent_sameTabs w _)

theorem switchView_sameTabs (w : World) (v : View) (rnd : ℚ) :
    SameTabs w (switchView w v rnd) := by
  cases v
  · exact refreshCard_sameTabs _ _ _ (sameTabs_refl w)
  · exact sameTabs_refl w
  · exact sameTabs_refl w

theorem handleCardTap_sameTabs (w : World) : SameTabs w (handleCardTap w) := by
  unfold handleCardTap
  split
  · exact sameTabs_refl w
  · split <;> exact ⟨rfl, rfl⟩

theorem handleSaveCard_sameTabs (w : World) (f b : String) (tId tCreated : Nat) :
    SameTabs w (handleSaveCard w f b tId tCreated) := by
  unfold handleSaveCard
  simp only
  split <;> exact ⟨rfl, rfl⟩

theorem deleteCard_sameTabs (w : World) (id : String) (confirmed : Bool) :
    SameTabs w (deleteCard w id confirmed) := by
  unfold deleteCard
  split
  · simp only
    split
    · exact ⟨rfl, rfl⟩
    · split <;> exact ⟨rfl, rfl⟩
  · exact sameTabs_refl w

theorem archiveCard_sameTabs (w : World) (id : String) (rnd : ℚ) :
    SameTabs w (archiveCard w id rnd) := by
  unfold archiveCard
  split
  · exact sameTabs_refl w
  · simp only
    split
    · exact ⟨rfl, rfl⟩
    · split
      · exact refreshCard_sameTabs _ _ _ ⟨rfl, rfl⟩
      · exact ⟨rfl, rfl⟩

theorem unarchiveCard_sameTabs (w : World) (id : String) (rnd : ℚ) :
    SameTabs w (unarchiveCard w id rnd) := by
  unfold unarchiveCard
  split
  · exact sameTabs_refl w
  · exact refreshCard_sameTabs _ _ _ ⟨rfl, rfl⟩

theorem editCard_sameTabs (w : World) (id : String) (f b : Option String) :
    SameTabs w (editCard w id f b) := by
  unfold editCard
  split
  · exact sameTabs_refl w
  · split
    · simp only
      split
      · exact ⟨rfl, rfl⟩
      · split <;> exact ⟨rfl, rfl⟩
    · exact sameTabs_refl w

theorem openManageTabDialog_sameTabs (w : World) (tabId : String) :
    SameTabs w (openManageTabDialog w tabId) := by
  unfold openManageTabDialog
  split <;> exact ⟨rfl, rfl⟩

theorem activeTabValid_iff (s : AppState) :
    ActiveTabValid s ↔ s.activeTabId ∈ s.tabs.map Tab.id := by
  unfold ActiveTabValid
  rw [List.mem_map]
  constructor
  · rintro ⟨_, t, ht, hid⟩
    exact ⟨t, ht, hid⟩
  · rintro ⟨t, ht, hid⟩
    exact ⟨List.ne_nil_of_mem ht, t, ht, hid⟩

theorem activeTabValid_of_sameTabs {w w' : World} (h : SameTabs w w')
    (hv : ActiveTabValid w.state) : ActiveTabValid w'.state := by
  rw [activeTabValid_iff] at hv ⊢
  rw [h.1, h.2]
  exact hv

theorem startup_valid (slot : Option AppState) (t0 tId tCreated : Nat) :
    ActiveTabValid (startup slot t0 tId tCreated).state := by
  unfold startup
  simp only
  split
  next t ht =>
    exact ⟨List.ne_nil_of_mem (List.mem_of_find?_eq_some ht), t,
      List.mem_of_find?_eq_some ht, by simpa using List.find?_some ht⟩
  next hnone =>
    split
    next first rest htabs =>
      refine ⟨?_, first, ?_, rfl⟩
      · simp only [saveState]; rw [htabs]; simp
      · simp only [saveState]; rw [htabs]; simp
    next htabs =>
      exact ⟨by simp [saveState],
        { id := "tab-" ++ toString tId, name := "General", createdAt := tCreated },
        by simp [saveState], rfl⟩

theorem tabOnclick_valid (w : World) (i : Nat) (rnd : ℚ) (hv : ActiveTabValid w.state) :
    ActiveTabValid (tabOnclick w i rnd).state := by
  unfold tabOnclick
  split
  · exact hv
  next tab htab =>
    simp only [showFlashcardView, switchView, refreshCard_state, saveState_state]
    have hmem : tab ∈ w.state.tabs := List.mem_iff_getElem?.2 ⟨i, htab⟩
    exact ⟨List.ne_nil_of_mem hmem, tab, hmem, rfl⟩

theorem handleAddTab_valid (w : World) (name : Option String) (tId tCreated : Nat) (rnd : ℚ)
    (hv : ActiveTabValid w.state) :
    ActiveTabValid (handleAddTab w name tId tCreated rnd).state := by
  unfold handleAddTab
  split
  · exact hv
  · split
    next name hname =>
      simp only [showFlashcardView, switchView, refreshCard_state, saveState_state]
      exact ⟨by simp, { id := "tab-" ++ toString tId, name := name, createdAt := tCreated },
        by simp, rfl⟩
    · exact hv

theorem modifyFirst_map_id (p : Tab → Bool) (f : Tab → Tab) (hf : ∀ t, (f t).id = t.id) :
    ∀ l : List Tab, (modifyFirst p f l).map Tab.id = l.map Tab.id
  | [] => rfl
  | a :: l => by
      unfold modifyFirst
      split
      · simp [hf]
      · simp [modifyFirst_map_id p f hf l]

theorem manageTabDialogClose_valid (w : World) (rv iv : String) (hv : ActiveTabValid w.state) :
    ActiveTabValid (manageTabDialogClose w rv iv).state := by
  rw [activeTabValid_iff] at hv ⊢
  unfold manageTabDialogClose
  simp only
  split
  · split
    · exact hv
    · split
      · split
        · exact hv
        · simp only [saveState_state]
          rw [modifyFirst_map_id _ (fun t => { t with name := jsTrim iv }) (fun _ => rfl)]
          exact hv
      · exact hv
  · exact hv

theorem filter_ne_nil_of_nodup (tabs : List Tab) (eid : String)
    (hnd : (tabs.map Tab.id).Nodup) (hlen : ¬ tabs.length ≤ 1) :
    tabs.filter (fun t => t.id != eid) ≠ [] := by
  match tabs, hnd, hlen with
  | [], _, hlen => simp at hlen
  | [_], _, hlen => simp at hlen
  | a :: b :: rest, hnd, _ =>
      simp only [List.map_cons, List.nodup_cons, List.mem_cons, not_or] at hnd
      have hab : a.id ≠ b.id := hnd.1.1
      intro hnil
      rw [List.filter_eq_nil_iff] at hnil
      have ha := hnil a (by simp)
      have hb := hnil b (by simp)
      simp only [bne_iff_ne, ne_eq, Decidable.not_not] at ha hb
      exact hab (ha.trans hb.symm)

theorem handleDeleteTab_valid (w : World) (confirmed : Bool) (rnd : ℚ)
    (hnd : (w.state.tabs.map Tab.id).Nodup) (hv : ActiveTabValid w.state) :
    ∃ w', handleDeleteTab w confirmed rnd = Outcome.completed w' ∧ ActiveTabValid w'.state := by
  unfold handleDeleteTab
  split
  · exact ⟨w, rfl, hv⟩
  next eid heid =>
    split
    · exact ⟨w, rfl, hv⟩
    · split
      · exact ⟨w, rfl, hv⟩
      next hlen =>
        split
        · simp only
          split
          next hact =>
            split
            next hnil =>
              exact absurd hnil (filter_ne_nil_of_nodup _ eid hnd hlen)
            next first rest hcons =>
              refine ⟨_, rfl, ?_⟩
              simp only [showFlashcardView, switchView, refreshCard_state, saveState_state]
              refine ⟨?_, first, ?_, rfl⟩
              · simp only; rw [hcons]; simp
              · simp only; rw [hcons]; simp
          next hact =>
            refine ⟨_, rfl, ?_⟩
            simp only [showFlashcardView, switchView, refreshCard_state, saveState_state]
            obtain ⟨_, t, ht, hid⟩ := hv
            have hne : t.id ≠ eid := by
              intro h
              apply hact
              simp only [filterCards, beq_iff_eq]
              rw [← hid, h]
            have hmem : t ∈ w.state.tabs.filter (fun t => t.id != eid) := by
              rw [List.mem_filter]
              exact ⟨ht, by simpa using hne⟩
            exact ⟨List.ne_nil_of_mem hmem, t, hmem, hid⟩
        · exact ⟨w, rfl, hv⟩

theorem handleDeleteTab_single (w : World) (confirmed : Bool) (rnd : ℚ)
    (h : w.state.tabs.length = 1) : handleDeleteTab w confirmed rnd = Outcome.completed w := by
  unfold handleDeleteTab
  split
  · rfl
  · split
    · rfl
    · rw [if_pos (by omega)]

theorem step_valid (w : World) (a : Action)
    (hnd : (w.state.tabs.map Tab.id).Nodup) (hv : ActiveTabValid w.state) :
    ∃ w', step w a = Outcome.completed w' ∧ ActiveTabValid w'.state := by
  cases a with
  | tabClick i rnd => exact ⟨_, rfl, tabOnclick_valid w i rnd hv⟩
  | addTab name tId tCreated rnd =>
      exact ⟨_, rfl, handleAddTab_valid w name tId tCreated rnd hv⟩
  | openManageTab tabId =>
      exact ⟨_, rfl, activeTabValid_of_sameTabs (openManageTabDialog_sameTabs w tabId) hv⟩
  | closeManageTab rv iv => exact ⟨_, rfl, manageTabDialogClose_valid w rv iv hv⟩
  | deleteTab confirmed rnd => exact handleDeleteTab_valid w confirmed rnd hnd hv
  | showView v rnd =>
      exact ⟨_, rfl, activeTabValid_of_sameTabs (switchView_sameTabs w v rnd) hv⟩
  | cardTap => exact ⟨_, rfl, activeTabValid_of_sameTabs (handleCardTap_sameTabs w) hv⟩
  | rate isCorrect rnd =>
      exact ⟨_, rfl, activeTabValid_of_sameTabs (rateCard_sameTabs w isCorrect rnd) hv⟩
  | deleteCurrent confirmed rnd =>
      exact ⟨_, rfl, activeTabValid_of_sameTabs (deleteCurrentCard_sameTabs w confirmed rnd) hv⟩
  | archiveCurrent rnd =>
      exact ⟨_, rfl, activeTabValid_of_sameTabs (archiveCurrentCard_sameTabs w rnd) hv⟩
  | saveCard f b tId tCreated =>
      exact ⟨_, rfl, activeTabValid_of_sameTabs (handleSaveCard_sameTabs w f b tId tCreated) hv⟩
  | deleteCard id confirmed =>
      exact ⟨_, rfl, activeTabValid_of_sameTabs (deleteCard_sameTabs w id confirmed) hv⟩
  | archiveCard id rnd =>
      exact ⟨_, rfl, activeTabValid_of_sameTabs (archiveCard_sameTabs w id rnd) hv⟩
  | unarchiveCard id rnd =>
      exact ⟨_, rfl, activeTabValid_of_sameTabs (unarchiveCard_sameTabs w id rnd) hv⟩
  | editCard id f b =>
      exact ⟨_, rfl, activeTabValid_of_sameTabs (editCard_sameTabs w id f b) hv⟩

/-- C4: `tabs` is non-empty and `activeTabId` is the id of one of its tabs
after the load-time repair, whatever the storage slot held; every non-import
handler (tab click, add / manage / rename / delete tab, view switch, card tap,
rate, delete / archive current card, save / delete / archive / unarchive /
edit card) run on a state with pairwise distinct tab ids and a valid
`activeTabId` completes and leaves `activeTabId` valid; and `handleDeleteTab`
on a state with exactly one tab changes nothing. -/
theorem activeTab_invariant :
    (∀ (slot : Option AppState) (t0 tId tCreated : Nat),
      ActiveTabValid (startup slot t0 tId tCreated).state) ∧
    (∀ (w : World) (a : Action), (w.state.tabs.map Tab.id).Nodup → ActiveTabValid w.state →
      ∃ w', step w a = Outcome.completed w' ∧ ActiveTabValid w'.state ∧
        0 < w'.state.tabs.length) ∧
    (∀ (w : World) (confirmed : Bool) (rnd : ℚ), w.state.tabs.length = 1 →
      handleDeleteTab w confirmed rnd = Outcome.completed w) := by
  refine ⟨startup_valid, ?_, handleDeleteTab_single⟩
  intro w a hnd hv
  obtain ⟨w', hstep, hv'⟩ := step_valid w a hnd hv
  exact ⟨w', hstep, hv', List.length_pos.2 hv'.1⟩

/-- Witness for C4: deleting the active tab of `twoTabWorld`, whose tab ids
are distinct, completes and leaves a valid `activeTabId`. -/
theorem activeTab_invariant_witness :
    (twoTabWorld.state.tabs.map Tab.id).Nodup ∧ ActiveTabValid twoTabWorld.state ∧
    ∃ w', step twoTabWorld (Action.deleteTab true 0) = Outcome.completed w' ∧
      ActiveTabValid w'.state ∧ 0 < w'.state.tabs.length :=
  have hnd : (twoTabWorld.state.tabs.map Tab.id).Nodup := by decide
  have hv : ActiveTabValid twoTabWorld.state :=
    ⟨by decide, { id := "tab-1", name := "General", createdAt := 0 }, by decide, rfl⟩
  ⟨hnd, hv, activeTab_invariant.2.1 twoTabWorld (Action.deleteTab true 0) hnd hv⟩

/-! ## Deleting a tab (C5) -/

theorem filterCards_state (w : World) (keep : Card → Bool) :
    (filterCards w keep).state = { w.state with cards := w.state.cards.filter keep } := rfl

/-- C5 (amended): on a state with at least two tabs, for a non-empty id `t`
being managed such that some tab has another id, a confirmed `handleDeleteTab`
completes; the cards are the original cards with `tabId != t`, in order and
unmodified; the tabs are the original tabs with `id != t`, in order; and
`activeTabId` is the id of the first remaining tab if `t` was active and is
unchanged otherwise. -/
theorem handleDeleteTab_cascade (w : World) (t : String) (rnd : ℚ)
    (hlen : 2 ≤ w.state.tabs.length) (hedit : w.editingTabId = some t) (ht : t ≠ "")
    (hrem : w.state.tabs.filter (fun x => x.id != t) ≠ []) :
    ∃ w', handleDeleteTab w true rnd = Outcome.completed w' ∧
      w'.state.cards = w.state.cards.filter (fun c => c.tabId != t) ∧
      w'.state.tabs = w.state.tabs.filter (fun x => x.id != t) ∧
      w'.state.activeTabId =
        (if w.state.activeTabId = t then
          ((w.state.tabs.filter (fun x => x.id != t)).head hrem).id
        else w.state.activeTabId) := by
  unfold handleDeleteTab
  rw [hedit]
  simp only
  rw [if_neg (by simp [truthy, ht]), if_neg (by omega)]
  simp only [if_true]
  split
  next hact =>
    have hact' : w.state.activeTabId = t := by simpa [filterCards] using hact
    split
    next hnil => exact absurd hnil hrem
    next first rest hcons =>
      refine ⟨_, rfl, ?_, ?_, ?_⟩
      · simp only [showFlashcardView, switchView, refreshCard_state, saveState_state,
          filterCards_state]
      · simp only [showFlashcardView, switchView, refreshCard_state, saveState_state,
          filterCards_state]
      · simp only [showFlashcardView, switchView, refreshCard_state, saveState_state]
        rw [if_pos hact']
        have hcons' : w.state.tabs.filter (fun x => x.id != t) = first :: rest := hcons
        simp only [hcons', List.head_cons]
  next hact =>
    have hact' : ¬ w.state.activeTabId = t := by simpa [filterCards] using hact
    refine ⟨_, rfl, ?_, ?_, ?_⟩
    · simp only [showFlashcardView, switchView, refreshCard_state, saveState_state,
        filterCards_state]
    · simp only [showFlashcardView, switchView, refreshCard_state, saveState_state,
        filterCards_state]
    · simp only [showFlashcardView, switchView, refreshCard_state, saveState_state,
        filterCards_state]
      rw [if_neg hact']

/-- Witness for C5: deleting the active tab `tab-1` of `twoTabWorld`. -/
theorem handleDeleteTab_cascade_witness :
    ∃ w', handleDeleteTab twoTabWorld true 0 = Outcome.completed w' ∧
      w'.state.cards = [cardC] ∧
      w'.state.tabs = [{ id := "tab-2", name := "Maths", createdAt := 0 }] ∧
      w'.state.activeTabId = "tab-2" := by
  obtain ⟨w', h, hc, ht, ha⟩ :=
    handleDeleteTab_cascade twoTabWorld "tab-1" 0 (by decide) rfl (by decide) (by decide)
  exact ⟨w', h, by rw [hc]; decide, by rw [ht]; decide, by rw [ha]; decide⟩

/-- Counterexample to C5 as stated.  When the two tabs share the id being
deleted and it is active, no tab remains: the handler throws at
`state.tabs[0].id` and `activeTabId` is not the id of a remaining tab.  When
the id being managed is the empty string, `!editingTabId` holds and the handler
returns without deleting anything. -/
theorem handleDeleteTab_cascade_counterexample :
    (2 ≤ dupTabWorld.state.tabs.length ∧ dupTabWorld.editingTabId = some "tab-1" ∧
      handleDeleteTab dupTabWorld true 0
        = Outcome.threw { dupTabWorld with
            state := { tabs := [], cards := [], activeTabId := "tab-1" } }) ∧
    (2 ≤ blankIdWorld.state.tabs.length ∧ blankIdWorld.editingTabId = some "" ∧
      handleDeleteTab blankIdWorld true 0 = Outcome.completed blankIdWorld ∧
      blankIdWorld.state.tabs ≠ blankIdWorld.state.tabs.filter (fun x => x.id != "")) := by
  refine ⟨⟨by decide, rfl, by decide⟩, by decide, rfl, by decide, by decide⟩

/-! ## Export and import (C6, C7, C10) -/

theorem showFlashcardView_state (w : World) (rnd : ℚ) :
    (showFlashcardView w rnd).state = w.state := by
  simp only [showFlashcardView, switchView, refreshCard_state]

theorem showFlashcardView_stored (w : World) (rnd : ℚ) :
    (showFlashcardView w rnd).stored = w.stored := by
  simp only [showFlashcardView, switchView, refreshCard_stored]

/-- A file that cannot be parsed, or whose document lacks `tabs` or lacks
`cards`, is reported as a failure and no variable is written. -/
theorem handleFileImport_rejected (w : World) (confirmed : Bool) (rnd : ℚ) :
    handleFileImport w (some FileContent.malformed) confirmed rnd
      = (w, ImportReport.failed ImportError.syntaxError) ∧
    (∀ d : ImportDoc, d.tabs = none ∨ d.cards = none →
      handleFileImport w (some (FileContent.document d)) confirmed rnd
        = (w, ImportReport.failed ImportError.invalidFormat)) := by
  refine ⟨rfl, ?_⟩
  intro d hd
  unfold handleFileImport
  rcases d with ⟨tabs, cards, act⟩
  rcases hd with h | h
  · simp only at h; subst h; cases cards <;> rfl
  · simp only at h; subst h; cases tabs <;> rfl

theorem handleFileImport_cons (w : World) (first : Tab) (rest : List Tab)
    (cards : List Card) (act : String) (rnd : ℚ) :
    (handleFileImport w
        (some (FileContent.document
          { tabs := some (first :: rest), cards := some cards, activeTabId := act }))
        true rnd).2 = ImportReport.restored ∧
    (handleFileImport w
        (some (FileContent.document
          { tabs := some (first :: rest), cards := some cards, activeTabId := act }))
        true rnd).1.state = { tabs := first :: rest, cards := cards, activeTabId := first.id } ∧
    (handleFileImport w
        (some (FileContent.document
          { tabs := some (first :: rest), cards := some cards, activeTabId := act }))
        true rnd).1.stored
      = some { tabs := first :: rest, cards := cards, activeTabId := act } := by
  unfold handleFileImport
  simp only [if_true, showFlashcardView_state, showFlashcardView_stored]
  refine ⟨?_, ?_, ?_⟩ <;> first | rfl | trivial

/-- A confirmed import of a document that has both collections and at least
one tab reports success; `state` then holds the document with `activeTabId`
set to the id of its first tab, and the storage slot holds the document with
the `activeTabId` it came with. -/
theorem handleFileImport_restored (w : World) (first : Tab) (rest : List Tab)
    (cards : List Card) (act : String) (rnd : ℚ) :
    (handleFileImport w
        (some (FileContent.document
          { tabs := some (first :: rest), cards := some cards, activeTabId := act }))
        true rnd).2 = ImportReport.restored ∧
    (handleFileImport w
        (some (FileContent.document
          { tabs := some (first :: rest), cards := some cards, activeTabId := act }))
        true rnd).1.state = { tabs := first :: rest, cards := cards, activeTabId := first.id } ∧
    (handleFileImport w
        (some (FileContent.document
          { tabs := some (first :: rest), cards := some cards, activeTabId := act }))
        true rnd).1.stored
      = some { tabs := first :: rest, cards := cards, activeTabId := act } :=
  handleFileImport_cons w first rest cards act rnd

/-- C7: importing, with confirmation, the document exported from a state with
at least one tab gives a state with the same tabs and the same cards, whose
`activeTabId` is the id of the first tab; the import reports success. -/
theorem export_import_roundtrip (exporter w : World) (rnd : ℚ)
    (hne : exporter.state.tabs ≠ []) :
    (handleFileImport w (some (handleExport exporter)) true rnd).2 = ImportReport.restored ∧
    (handleFileImport w (some (handleExport exporter)) true rnd).1.state.tabs
      = exporter.state.tabs ∧
    (handleFileImport w (some (handleExport exporter)) true rnd).1.state.cards
      = exporter.state.cards ∧
    (handleFileImport w (some (handleExport exporter)) true rnd).1.state.activeTabId
      = (exporter.state.tabs.head hne).id := by
  obtain ⟨first, rest, htabs⟩ := List.exists_cons_of_ne_nil hne
  obtain ⟨h1, h2, _⟩ := handleFileImport_cons w first rest exporter.state.cards
    exporter.state.activeTabId rnd
  unfold handleExport
  simp only [htabs, List.head_cons]
  rw [h1, h2]
  exact ⟨rfl, rfl, rfl, rfl⟩

/-- Witness for C7: export `twoTabWorld`, import into `twoCardWorld`. -/
theorem export_import_roundtrip_witness :
    (handleFileImport twoCardWorld (some (handleExport twoTabWorld)) true 0).1.state
      = twoTabWorld.state := by
  obtain ⟨_, ht, hc, ha⟩ := export_import_roundtrip twoTabWorld twoCardWorld 0 (by decide)
  have hact : (twoTabWorld.state.tabs.head (by decide)).id = twoTabWorld.state.activeTabId := by
    decide
  rw [hact] at ha
  generalize (handleFileImport twoCardWorld (some (handleExport twoTabWorld)) true 0).1.state
    = s at ht hc ha
  cases s
  simp only at ht hc ha
  rw [ht, hc, ha]

/-- C6, the failing input: a confirmed import of a document whose `tabs` array
is empty is reported as failed, yet `state` and the storage slot have already
been overwritten with the document. -/
theorem handleFileImport_emptyTabs :
    importEmptyTabs
      = ({ twoCardWorld with
            state := { tabs := [], cards := [], activeTabId := "tab-1" }
            stored := some { tabs := [], cards := [], activeTabId := "tab-1" } },
          ImportReport.failed ImportError.typeError) ∧
    importEmptyTabs.1.state ≠ twoCardWorld.state ∧
    importEmptyTabs.1.stored ≠ twoCardWorld.stored := by
  refine ⟨rfl, by decide, by decide⟩

/-- C10, the failing input: after a successful import of a document whose
`activeTabId` is not its first tab, the storage slot holds the document's own
`activeTabId` while `state.activeTabId` is the first tab's id. -/
theorem handleFileImport_stale_slot :
    importSecondActive.2 = ImportReport.restored ∧
    importSecondActive.1.state.activeTabId = "tab-a" ∧
    importSecondActive.1.stored.map (fun s => s.activeTabId) = some "tab-b" ∧
    importSecondActive.1.stored ≠ some importSecondActive.1.state := by
  obtain ⟨h1, h2, h3⟩ := handleFileImport_cons twoCardWorld
    { id := "tab-a", name := "First", createdAt := 0 }
    [{ id := "tab-b", name := "Second", createdAt := 0 }] [] "tab-b" 0
  unfold importSecondActive secondActiveDoc
  rw [h1, h2, h3]
  decide

/-! ## Persistence of the non-import handlers -/

theorem persisted_refl (w : World) : Persisted w w := Or.inl ⟨rfl, rfl⟩

theorem refreshCard_saved (x : World) (rnd : ℚ) :
    (refreshCard (saveState x) rnd).stored = some (refreshCard (saveState x) rnd).state := by
  rw [refreshCard_stored, refreshCard_state]
  rfl

theorem refreshCard_persisted (w : World) (rnd : ℚ) : Persisted w (refreshCard w rnd) :=
  Or.inl ⟨refreshCard_state w rnd, refreshCard_stored w rnd⟩

theorem step_persisted (w : World) (a : Action) (w' : World)
    (h : step w a = Outcome.completed w') : Persisted w w' := by
  cases a with
  | tabClick i rnd =>
      simp only [step, Outcome.completed.injEq] at h
      subst h
      unfold tabOnclick
      split
      · exact persisted_refl w
      · exact Or.inr (refreshCard_saved _ rnd)
  | addTab name tId tCreated rnd =>
      simp only [step, Outcome.completed.injEq] at h
      subst h
      unfold handleAddTab
      split
      · exact persisted_refl w
      · split
        · exact Or.inr (refreshCard_saved _ rnd)
        · exact persisted_refl w
  | openManageTab tabId =>
      simp only [step, Outcome.completed.injEq] at h
      subst h
      unfold openManageTabDialog
      split <;> exact Or.inl ⟨rfl, rfl⟩
  | closeManageTab rv iv =>
      simp only [step, Outcome.completed.injEq] at h
      subst h
      unfold manageTabDialogClose
      simp only
      split
      · split
        · exact Or.inl ⟨rfl, rfl⟩
        · split
          · split
            · exact Or.inl ⟨rfl, rfl⟩
            · exact Or.inr rfl
          · exact Or.inl ⟨rfl, rfl⟩
      · exact Or.inl ⟨rfl, rfl⟩
  | deleteTab confirmed rnd =>
      simp only [step] at h
      unfold handleDeleteTab at h
      split at h
      · simp only [Outcome.completed.injEq] at h; subst h; exact persisted_refl w
      · split at h
        · simp only [Outcome.completed.injEq] at h; subst h; exact persisted_refl w
        · split at h
          · simp only [Outcome.completed.injEq] at h; subst h; exact persisted_refl w
          · split at h
            · simp only at h
              split at h
              · split at h
                · cases h
                · simp only [Outcome.completed.injEq] at h
                  subst h
                  exact Or.inr (refreshCard_saved _ rnd)
              · simp only [Outcome.completed.injEq] at h
                subst h
                exact Or.inr (refreshCard_saved _ rnd)
            · simp only [Outcome.completed.injEq] at h; subst h; exact persisted_refl w
  | showView v rnd =>
      simp only [step, Outcome.completed.injEq] at h
      subst h
      cases v
      · exact refreshCard_persisted w rnd
      · exact persisted_refl w
      · exact persisted_refl w
  | cardTap =>
      simp only [step, Outcome.completed.injEq] at h
      subst h
      unfold handleCardTap
      split
      · exact persisted_refl w
      · split <;> exact Or.inl ⟨rfl, rfl⟩
  | rate isCorrect rnd =>
      simp only [step, Outcome.completed.injEq] at h
      subst h
      unfold rateCard
      split
      · exact persisted_refl w
      · exact Or.inr (refreshCard_saved _ rnd)
  | deleteCurrent confirmed rnd =>
      simp only [step, Outcome.completed.injEq] at h
      subst h
      unfold deleteCurrentCard
      split
      · exact persisted_refl w
      · split
        · exact Or.inr (refreshCard_saved _ rnd)
        · exact persisted_refl w
  | archiveCurrent rnd =>
      simp only [step, Outcome.completed.injEq] at h
      subst h
      unfold archiveCurrentCard
      split
      · exact persisted_refl w
      · exact Or.inr (refreshCard_saved _ rnd)
  | saveCard f b tId tCreated =>
      simp only [step, Outcome.completed.injEq] at h
      subst h
      unfold handleSaveCard
      simp only
      split
      · exact persisted_refl w
      · exact Or.inr rfl
  | deleteCard id confirmed =>
      simp only [step, Outcome.completed.injEq] at h
      subst h
      unfold deleteCard
      split
      · simp only
        split
        · exact Or.inr rfl
        · split <;> exact Or.inr rfl
      · exact persisted_refl w
  | archiveCard id rnd =>
      simp only [step, Outcome.completed.injEq] at h
      subst h
      unfold archiveCard
      split
      · exact persisted_refl w
      · simp only
        split
        · exact Or.inr rfl
        · split
          · right
            rw [refreshCard_stored, refreshCard_state]
            rfl
          · exact Or.inr rfl
  | unarchiveCard id rnd =>
      simp only [step, Outcome.completed.injEq] at h
      subst h
      unfold unarchiveCard
      split
      · exact persisted_refl w
      · exact Or.inr (refreshCard_saved _ rnd)
  | editCard id f b =>
      simp only [step, Outcome.completed.injEq] at h
      subst h
      unfold editCard
      split
      · exact persisted_refl w
      · split
        · simp only
          split
          · exact Or.inr rfl
          · split <;> exact Or.inr rfl
        · exact persisted_refl w

theorem startup_persisted (slot : Option AppState) (t0 tId tCreated : Nat) :
    ((startup slot t0 tId tCreated).state = (loadState slot).getD (defaultState t0) ∧
      (startup slot t0 tId tCreated).stored = slot) ∨
    (startup slot t0 tId tCreated).stored = some (startup slot t0 tId tCreated).state := by
  unfold startup
  simp only
  split
  · exact Or.inl ⟨rfl, rfl⟩
  · split <;> exact Or.inr rfl

/-- Every non-import handler that completes, and the load-time repair, either
writes neither `state` nor the storage slot or ends with the slot holding the
serialisation of the final `state`. -/
theorem nonImport_persisted :
    (∀ (w : World) (a : Action) (w' : World), step w a = Outcome.completed w' →
      Persisted w w') ∧
    (∀ (slot : Option AppState) (t0 tId tCreated : Nat),
      ((startup slot t0 tId tCreated).state = (loadState slot).getD (defaultState t0) ∧
        (startup slot t0 tId tCreated).stored = slot) ∨
      (startup slot t0 tId tCreated).stored = some (startup slot t0 tId tCreated).state) :=
  ⟨step_persisted, startup_persisted⟩

end CardsIndex
